import Mathlib

/-!
# httpstat: a per-request timing tracer

A shallow embedding of `httpstat.go`.

* `time.Time` is an integer, the nanoseconds elapsed since the zero value of
  `time.Time` (January 1, year 1, 00:00 UTC), so the zero value is `0` and a clock
  reading of today is about `6.4 * 10 ^ 19`.
* `time.Duration` is an integer number of nanoseconds; `Time.Sub` is the difference of
  two instants saturated to the range of an int64, as in the time library.
* The captured variable `t *trace` and the entries of `*traces` are pointers.  Records
  live in an explicit memory (`Tracer.heap`), a pointer is `none` (nil) or `some i`
  (the address of cell `i`), and `&trace{}` allocates the next cell.
* Every call of `time.Now()` is an explicit clock reading passed to the handler.
* A nil-pointer dereference is the result `none`.
-/

namespace httpstat

/-- An instant, the `time.Time` of the source: the nanoseconds elapsed since the zero
value of `time.Time`, which therefore is `0`. -/
abbrev Time := Int

/-- An elapsed time, the `time.Duration` of the source, in nanoseconds. -/
abbrev Duration := Int

/-- The smallest `time.Duration`, `-1 << 63` nanoseconds. -/
def minDuration : Int := -9223372036854775808

/-- The largest `time.Duration`, `1 << 63 - 1` nanoseconds (about 292 years). -/
def maxDuration : Int := 9223372036854775807

/-- The call `t.Sub(u)` of the time library, on instants and with a duration as result:
the duration `t - u` when it can be represented in an int64, otherwise `minDuration`
when `t` is before `u` and `maxDuration` when it is after. -/
def Time.Sub (t u : Int) : Int :=
  if minDuration ≤ t - u ∧ t - u ≤ maxDuration then t - u
  else if t < u then minDuration
  else maxDuration

/-- The difference `t - u` can be represented as a `time.Duration`: `t.Sub(u)` does not
saturate. -/
def inRange (t u : Int) : Prop :=
  minDuration ≤ t - u ∧ t - u ≤ maxDuration

/-- A reading of a real clock: midnight UTC of 2026-11-04, that is 739923 days after
the zero time, in nanoseconds. -/
def T0 : Int := 63929347200000000000

/-- The struct `trace`. -/
structure trace where
  addr : String
  start : Time
  dnsStart : Time
  dnsEnd : Time
  tcpStart : Time
  tcpEnd : Time
  waitStart : Time
  waitEnd : Time
deriving DecidableEq, Repr

/-- The composite literal `trace{}`: every field at its zero value. -/
def trace.zero : trace :=
  { addr := "", start := 0, dnsStart := 0, dnsEnd := 0, tcpStart := 0, tcpEnd := 0,
    waitStart := 0, waitEnd := 0 }

/-- Address implementation. -/
def trace.Address (t : trace) : String := t.addr

/-- Start implementation. -/
def trace.Start (t : trace) : Time := t.start

/-- TimeDNS implementation. -/
def trace.TimeDNS (t : trace) : Duration := Time.Sub t.dnsEnd t.dnsStart

/-- TimeConnect implementation. -/
def trace.TimeConnect (t : trace) : Duration := Time.Sub t.tcpEnd t.tcpStart

/-- TimeWait implementation. -/
def trace.TimeWait (t : trace) : Duration := Time.Sub t.waitEnd t.waitStart

/-- TimeDownload implementation. -/
def trace.TimeDownload (t : trace) (now : Time) : Duration := Time.Sub now t.waitEnd

/-- TimeResponse implementation. -/
def trace.TimeResponse (t : trace) (now : Time) : Duration := Time.Sub now t.waitStart

/-- TimeTotal implementation. -/
def trace.TimeTotal (t : trace) (now : Time) : Duration := Time.Sub now t.start

/-- Modelled from the spec: the declaration of the struct `Stats` is not in the source
file; the spec describes it as a value object holding six durations, and the composite
literal in `trace.Stats` names its fields. -/
structure Stats where
  TimeDNS : Duration
  TimeConnect : Duration
  TimeWait : Duration
  TimeResponse : Duration
  TimeDownload : Duration
  TimeTotal : Duration
deriving DecidableEq, Repr

/-- Stats returns a struct of stats; `now` is the reading of `time.Now()` taken on
entry. -/
def trace.Stats (t : trace) (now : Time) : httpstat.Stats :=
  { TimeDNS := t.TimeDNS
    TimeConnect := t.TimeConnect
    TimeWait := t.TimeWait
    TimeResponse := t.TimeResponse now
    TimeDownload := t.TimeDownload now
    TimeTotal := t.TimeTotal now }

/-- The state the closures of `WithTraces` share: the memory holding the records, the
captured variable `t` and the slice `*traces`. -/
structure Tracer where
  heap : List trace
  t : Option Nat
  traces : List (Option Nat)
deriving DecidableEq, Repr

/-- Reading through a pointer: `none` for nil (and for an address never allocated). -/
def Tracer.deref (s : Tracer) (p : Option Nat) : Option trace :=
  match p with
  | none => none
  | some i => s.heap[i]?

/-- The statement `t = &trace{}`: a new zero record is allocated and `t` points to it. -/
def Tracer.new (s : Tracer) : Tracer :=
  { s with heap := s.heap ++ [trace.zero], t := some s.heap.length }

/-- A field assignment `t.f = v` through the captured pointer: fails when `t` is nil. -/
def Tracer.assign (s : Tracer) (f : trace → trace) : Option Tracer :=
  match s.t with
  | none => none
  | some i =>
    match s.heap[i]? with
    | none => none
    | some r => some { s with heap := s.heap.set i (f r) }

/-- The statement `*traces = append(*traces, t)`. -/
def Tracer.append (s : Tracer) : Tracer :=
  { s with traces := s.traces ++ [s.t] }

/-- The function `WithTraces`: `var t *trace` starts as nil; `traces` is the slice of the
caller and `heap` the memory its entries live in. -/
def WithTraces (heap : List trace) (traces : List (Option Nat)) : Tracer :=
  { heap := heap, t := none, traces := traces }

/-- The tracer attached to an empty slice. -/
def fresh : Tracer := WithTraces [] []

/-- The hook `GetConn`. -/
def GetConn (s : Tracer) (addr : String) (now : Time) : Option Tracer :=
  (s.new.assign (fun r => { r with start := now })).bind
    (fun s1 => s1.assign (fun r => { r with addr := addr }))

/-- The hook `GotConn`; `reused` is `info.Reused`. -/
def GotConn (s : Tracer) (reused : Bool) (now : Time) : Option Tracer :=
  (if reused then s.new.assign (fun r => { r with start := now }) else some s).bind
    (fun s1 => some s1.append)

/-- The hook `DNSStart`. -/
def DNSStart (s : Tracer) (now : Time) : Option Tracer :=
  s.assign (fun r => { r with dnsStart := now })

/-- The hook `DNSDone`. -/
def DNSDone (s : Tracer) (now : Time) : Option Tracer :=
  s.assign (fun r => { r with dnsEnd := now })

/-- The hook `ConnectStart`. -/
def ConnectStart (s : Tracer) (now : Time) : Option Tracer :=
  s.assign (fun r => { r with tcpStart := now })

/-- The hook `ConnectDone`. -/
def ConnectDone (s : Tracer) (now : Time) : Option Tracer :=
  s.assign (fun r => { r with tcpEnd := now })

/-- The hook `WroteRequest`. -/
def WroteRequest (s : Tracer) (now : Time) : Option Tracer :=
  s.assign (fun r => { r with waitStart := now })

/-- The hook `GotFirstResponseByte`. -/
def GotFirstResponseByte (s : Tracer) (now : Time) : Option Tracer :=
  s.assign (fun r => { r with waitEnd := now })

/-- The lifecycle events the transport delivers, with the arguments the hooks use. -/
inductive Event where
  | GetConn (addr : String)
  | GotConn (reused : Bool)
  | DNSStart
  | DNSDone
  | ConnectStart
  | ConnectDone
  | WroteRequest
  | GotFirstResponseByte
deriving DecidableEq, Repr

/-- One event delivered at clock reading `now`. -/
def step (s : Tracer) (e : Event) (now : Time) : Option Tracer :=
  match e with
  | .GetConn addr => GetConn s addr now
  | .GotConn reused => GotConn s reused now
  | .DNSStart => DNSStart s now
  | .DNSDone => DNSDone s now
  | .ConnectStart => ConnectStart s now
  | .ConnectDone => ConnectDone s now
  | .WroteRequest => WroteRequest s now
  | .GotFirstResponseByte => GotFirstResponseByte s now

/-- A sequence of events, each with the clock reading at its delivery; the run stops
with `none` at the first handler that fails. -/
def run (s : Tracer) : List (Event × Time) → Option Tracer
  | [] => some s
  | (e, now) :: rest => (step s e now).bind (fun s1 => run s1 rest)

/-- A method call on an entry of the trace list (a `*trace` behind the interface
`Trace`): fails on a nil receiver, otherwise yields the result of the method together
with the state after the call. -/
def Tracer.call {α : Type} (s : Tracer) (p : Option Nat) (m : trace → α) :
    Option (α × Tracer) :=
  (s.deref p).map (fun r => (m r, s))

/-- A pointer is nil or the address of an allocated cell. -/
def Tracer.valid (s : Tracer) (p : Option Nat) : Prop :=
  ∀ i, p = some i → i < s.heap.length

/-- Memory safety: the captured pointer and every entry of the trace list are nil or
addresses of allocated cells. -/
def Tracer.wf (s : Tracer) : Prop :=
  s.valid s.t ∧ ∀ p ∈ s.traces, s.valid p

/-- The events that create a record: `GetConn`, and `GotConn` on a reused connection. -/
def Event.creates : Event → Bool
  | .GetConn _ => true
  | .GotConn reused => reused
  | _ => false

/-- The events of the DNS phase. -/
def Event.isDNS : Event → Bool
  | .DNSStart => true
  | .DNSDone => true
  | _ => false

/-- The events of the connect phase. -/
def Event.isConnect : Event → Bool
  | .ConnectStart => true
  | .ConnectDone => true
  | _ => false

/-- The events that append to the trace list. -/
def Event.isGotConn : Event → Bool
  | .GotConn _ => true
  | _ => false

/-- The frame of an assignment through the captured pointer: the pointer itself, the
trace list, the size of the memory and every record other than the current one are
the same in `s1` as in `s`. -/
def Tracer.frame (s s1 : Tracer) : Prop :=
  s1.t = s.t ∧ s1.traces = s.traces ∧ s1.heap.length = s.heap.length ∧
    ∀ p, p ≠ s.t → s1.deref p = s.deref p

/-- What a stamping event writes into the current record (the identity for the events
that stamp nothing); used to describe `step` in the proofs. -/
def Event.stamp (e : Event) (c : Time) (r : trace) : trace :=
  match e with
  | .DNSStart => { r with dnsStart := c }
  | .DNSDone => { r with dnsEnd := c }
  | .ConnectStart => { r with tcpStart := c }
  | .ConnectDone => { r with tcpEnd := c }
  | .WroteRequest => { r with waitStart := c }
  | .GotFirstResponseByte => { r with waitEnd := c }
  | _ => r

/-- The record a creating event allocates at clock reading `c`; used to describe `step`
in the proofs. -/
def Event.created (e : Event) (c : Time) : trace :=
  match e with
  | .GetConn addr => { trace.zero with start := c, addr := addr }
  | _ => { trace.zero with start := c }

/-- All records of a memory from address `n` on satisfy `P`. -/
def heapFrom (P : trace → Prop) (n : Nat) (heap : List trace) : Prop :=
  ∀ j r, n ≤ j → heap[j]? = some r → P r

/-- The pointer `q` is the address of an allocated cell at address `n` or later. -/
def Tracer.pointsFrom (s : Tracer) (n : Nat) (q : Option Nat) : Prop :=
  ∃ j, q = some j ∧ n ≤ j ∧ j < s.heap.length

/-- The events of the wait phase. -/
def Event.isWait : Event → Bool
  | .WroteRequest => true
  | .GotFirstResponseByte => true
  | _ => false

/-- The six stamping events: those that neither create a record nor append to the
trace list. -/
def Event.isStamp : Event → Bool
  | .GetConn _ => false
  | .GotConn _ => false
  | _ => true

/-- The events of one dialled (not reused) connection in the order the transport
delivers them, with the clock reading of each. -/
def lifecycle (a : String) (c0 c1 c2 c3 c4 c5 c6 c7 : Time) : List (Event × Time) :=
  [(.GetConn a, c0), (.GotConn false, c1), (.DNSStart, c2), (.DNSDone, c3),
    (.ConnectStart, c4), (.ConnectDone, c5), (.WroteRequest, c6),
    (.GotFirstResponseByte, c7)]

/-- The seven timestamps of a record in the order of the lifecycle. -/
def trace.stamps (r : trace) : List Time :=
  [r.start, r.dnsStart, r.dnsEnd, r.tcpStart, r.tcpEnd, r.waitStart, r.waitEnd]

/-- How many of the seven timestamps the first `k` events of `lifecycle` have stamped:
`GetConn` stamps start, `GotConn` stamps nothing, each later event stamps one. -/
def stampedAfter (k : Nat) : Nat :=
  if k ≤ 1 then k else k - 1

/-- One millisecond, in nanoseconds. -/
def Millisecond : Duration := 1000000

/-! ## Subtraction of instants -/

theorem Sub_clamp (t u : Int) :
    Time.Sub t u = max minDuration (min maxDuration (t - u)) := by
  unfold Time.Sub minDuration maxDuration
  split_ifs <;> omega

theorem Sub_inRange (t u : Int) (h : inRange t u) : Time.Sub t u = t - u := by
  unfold inRange at h
  unfold Time.Sub
  rw [if_pos h]

theorem Sub_nonneg (t u : Int) (h : u ≤ t) : 0 ≤ Time.Sub t u := by
  unfold Time.Sub minDuration maxDuration
  split_ifs <;> omega

theorem Sub_zero_zero : Time.Sub 0 0 = 0 := by
  decide

theorem Sub_zero_right (now : Int) :
    Time.Sub now 0 = max minDuration (min maxDuration now) ∧
      (maxDuration ≤ now → Time.Sub now 0 = maxDuration) ∧
      (Time.Sub now 0 = 0 ↔ now = 0) := by
  refine ⟨?_, ?_, ?_⟩
  · rw [Sub_clamp, Int.sub_zero]
  · intro h
    rw [Sub_clamp]
    unfold minDuration maxDuration at *
    omega
  · rw [Sub_clamp]
    unfold minDuration maxDuration
    constructor <;> intro h1 <;> omega

/-! ## Memory lemmas -/

theorem assign_cur (s : Tracer) (f : trace → trace) (r : trace)
    (h : s.deref s.t = some r) :
    ∃ s1, s.assign f = some s1 ∧ s1.t = s.t ∧ s1.traces = s.traces ∧
      s1.deref s1.t = some (f r) ∧ s1.heap.length = s.heap.length ∧
      ∀ p, p ≠ s.t → s1.deref p = s.deref p := by
  obtain ⟨heap, t, traces⟩ := s
  cases t with
  | none => simp [Tracer.deref] at h
  | some i =>
    simp only [Tracer.deref] at h
    have hi : i < heap.length := by
      by_contra hlt
      rw [List.getElem?_eq_none (by omega)] at h
      cases h
    refine ⟨{ heap := heap.set i (f r), t := some i, traces := traces },
      by simp [Tracer.assign, h], rfl, rfl, ?_, ?_, ?_⟩
    · simp [Tracer.deref, hi]
    · simp
    · intro p hp
      cases p with
      | none => rfl
      | some j =>
        have hij : i ≠ j := fun e => hp (by rw [e])
        simp [Tracer.deref, List.getElem?_set_ne hij]

theorem new_cur (s : Tracer) :
    s.new.deref s.new.t = some trace.zero ∧ s.new.t = some s.heap.length ∧
      s.new.traces = s.traces ∧ s.new.heap = s.heap ++ [trace.zero] := by
  refine ⟨?_, rfl, rfl, rfl⟩
  simp [Tracer.new, Tracer.deref]

theorem new_old (s : Tracer) (p : Option Nat) (h : s.deref p ≠ none) :
    s.new.deref p = s.deref p := by
  cases p with
  | none => rfl
  | some j =>
    simp only [Tracer.deref] at h ⊢
    have hj : j < s.heap.length := by
      by_contra hlt
      exact h (List.getElem?_eq_none (by omega))
    simp [Tracer.new, List.getElem?_append_left hj]

theorem deref_length (s : Tracer) : s.deref (some s.heap.length) = none := by
  simp [Tracer.deref]

theorem deref_lt (s : Tracer) (i : Nat) (h : s.deref (some i) ≠ none) :
    i < s.heap.length := by
  by_contra hlt
  exact h (List.getElem?_eq_none (by omega))

theorem new_assign (s : Tracer) (f : trace → trace) :
    ∃ s1, s.new.assign f = some s1 ∧ s1.t = some s.heap.length ∧
      s1.traces = s.traces ∧ s1.deref s1.t = some (f trace.zero) ∧
      s1.heap.length = s.heap.length + 1 ∧
      ∀ p, s.deref p ≠ none → s1.deref p = s.deref p := by
  obtain ⟨hz, ht, htr, hh⟩ := new_cur s
  obtain ⟨s1, h1, h1t, h1tr, h1c, h1l, h1o⟩ := assign_cur s.new f trace.zero hz
  refine ⟨s1, h1, h1t.trans ht, h1tr.trans htr, h1c, ?_, ?_⟩
  · rw [h1l, hh]; simp
  · intro p hp
    have hne : p ≠ s.new.t := by
      intro e
      rw [e, ht] at hp
      exact hp (deref_length s)
    rw [h1o p hne, new_old s p hp]

theorem assign_frame (s : Tracer) (f : trace → trace) (r : trace)
    (h : s.deref s.t = some r) :
    ∃ s1, s.assign f = some s1 ∧ s1.deref s1.t = some (f r) ∧ s.frame s1 := by
  obtain ⟨s1, h1, h1t, h1tr, h1c, h1l, h1o⟩ := assign_cur s f r h
  exact ⟨s1, h1, h1c, h1t, h1tr, h1l, h1o⟩

/-! ## The handlers -/

/-- C1: on a state with a current record `r`, each stamping handler succeeds and sets
exactly its own field of the current record to the clock reading `c` (DNSStart sets
dnsStart, DNSDone dnsEnd, ConnectStart tcpStart, ConnectDone tcpEnd, WroteRequest
waitStart, GotFirstResponseByte waitEnd); the other fields of the record, every other
record, the captured pointer and the trace list are unchanged. -/
theorem C1_stamping_handlers (s : Tracer) (r : trace) (c : Time)
    (hcur : s.deref s.t = some r) :
    (∃ s1, DNSStart s c = some s1 ∧
        s1.deref s1.t = some { r with dnsStart := c } ∧ s.frame s1) ∧
    (∃ s1, DNSDone s c = some s1 ∧
        s1.deref s1.t = some { r with dnsEnd := c } ∧ s.frame s1) ∧
    (∃ s1, ConnectStart s c = some s1 ∧
        s1.deref s1.t = some { r with tcpStart := c } ∧ s.frame s1) ∧
    (∃ s1, ConnectDone s c = some s1 ∧
        s1.deref s1.t = some { r with tcpEnd := c } ∧ s.frame s1) ∧
    (∃ s1, WroteRequest s c = some s1 ∧
        s1.deref s1.t = some { r with waitStart := c } ∧ s.frame s1) ∧
    (∃ s1, GotFirstResponseByte s c = some s1 ∧
        s1.deref s1.t = some { r with waitEnd := c } ∧ s.frame s1) :=
  ⟨assign_frame s _ r hcur, assign_frame s _ r hcur, assign_frame s _ r hcur,
    assign_frame s _ r hcur, assign_frame s _ r hcur, assign_frame s _ r hcur⟩

/-- Witness of C1: a record created for "h:80" at time 1 and already appended is
stamped at time 7. -/
theorem C1_stamping_handlers_witness :
    ({ heap := [⟨"h:80", 1, 0, 0, 0, 0, 0, 0⟩], t := some 0, traces := [some 0] } :
        Tracer).deref (some 0) = some ⟨"h:80", 1, 0, 0, 0, 0, 0, 0⟩ ∧
    ∃ s1, WroteRequest
        { heap := [⟨"h:80", 1, 0, 0, 0, 0, 0, 0⟩], t := some 0, traces := [some 0] } 7
          = some s1 ∧
      s1.deref s1.t = some ⟨"h:80", 1, 0, 0, 0, 0, 7, 0⟩ ∧ s1.traces = [some 0] :=
  ⟨rfl, by
    obtain ⟨s1, h1, h2, h3⟩ :=
      (C1_stamping_handlers
        { heap := [⟨"h:80", 1, 0, 0, 0, 0, 0, 0⟩], t := some 0, traces := [some 0] }
        ⟨"h:80", 1, 0, 0, 0, 0, 0, 0⟩ 7 rfl).2.2.2.2.1
    exact ⟨s1, h1, h2, h3.2.1⟩⟩

/-- C2: on every state, for every address `a` and clock reading `c`, GetConn succeeds
and makes the current record a new record (at an address not allocated before) with
start = c, addr = a and the six phase timestamps at zero; the trace list is unchanged
(the new record is not appended) and every existing record is unchanged. -/
theorem C2_GetConn_new_record (s : Tracer) (a : String) (c : Time) :
    ∃ s1, GetConn s a c = some s1 ∧
      s1.deref s1.t = some
        { addr := a, start := c, dnsStart := 0, dnsEnd := 0, tcpStart := 0, tcpEnd := 0,
          waitStart := 0, waitEnd := 0 } ∧
      s1.traces = s.traces ∧
      s.deref s1.t = none ∧
      ∀ p, s.deref p ≠ none → s1.deref p = s.deref p := by
  obtain ⟨s1, h1, h1t, h1tr, h1c, h1l, h1o⟩ :=
    new_assign s (fun r => { r with start := c })
  obtain ⟨s2, h2, h2t, h2tr, h2c, h2l, h2o⟩ :=
    assign_cur s1 (fun r => { r with addr := a }) _ h1c
  refine ⟨s2, ?_, h2c, h2tr.trans h1tr, ?_, ?_⟩
  · simp [GetConn, h1, h2]
  · rw [h2t, h1t]; exact deref_length s
  · intro p hp
    have hne : p ≠ s1.t := by
      intro e
      rw [e, h1t] at hp
      exact hp (deref_length s)
    rw [h2o p hne, h1o p hp]

theorem assign_eq (s s1 : Tracer) (f : trace → trace) (h : s.assign f = some s1) :
    ∃ i r, s.t = some i ∧ s.heap[i]? = some r ∧
      s1 = { s with heap := s.heap.set i (f r) } := by
  unfold Tracer.assign at h
  cases ht : s.t with
  | none => simp [ht] at h
  | some i =>
    cases hr : s.heap[i]? with
    | none => simp [ht, hr] at h
    | some r =>
      simp only [ht, hr, Option.some.injEq] at h
      exact ⟨i, r, rfl, hr, h.symm⟩

theorem assign_same (s s1 : Tracer) (f : trace → trace) (h : s.assign f = some s1) :
    s1.t = s.t ∧ s1.traces = s.traces ∧ s1.heap.length = s.heap.length := by
  obtain ⟨i, r, _, _, rfl⟩ := assign_eq s s1 f h
  simp

theorem GotConn_spec (s : Tracer) (reused : Bool) (c : Time) :
    ∃ s1, GotConn s reused c = some s1 ∧ s1.traces = s.traces ++ [s1.t] ∧
      (reused = false → s1.t = s.t ∧ s1.heap = s.heap) ∧
      (reused = true → s1.t = some s.heap.length ∧
        s1.deref s1.t = some { trace.zero with start := c } ∧
        s1.heap.length = s.heap.length + 1 ∧
        ∀ p, s.deref p ≠ none → s1.deref p = s.deref p) := by
  cases reused with
  | false =>
    exact ⟨s.append, by simp [GotConn], rfl, fun _ => ⟨rfl, rfl⟩, fun h => by cases h⟩
  | true =>
    obtain ⟨s1, h1, h1t, h1tr, h1c, h1l, h1o⟩ :=
      new_assign s (fun r => { r with start := c })
    refine ⟨s1.append, by simp [GotConn, h1], ?_, fun h => (by cases h), fun _ => ?_⟩
    · simp [Tracer.append, h1tr]
    · exact ⟨h1t, h1c, h1l, h1o⟩

theorem GetConn_same (s s1 : Tracer) (a : String) (c : Time)
    (h : GetConn s a c = some s1) :
    s1.t = some s.heap.length ∧ s1.traces = s.traces ∧
      s1.heap.length = s.heap.length + 1 := by
  unfold GetConn at h
  cases h1 : s.new.assign (fun r => { r with start := c }) with
  | none => simp [h1] at h
  | some s2 =>
    simp only [h1, Option.some_bind] at h
    obtain ⟨a1, a2, a3⟩ := assign_same _ _ _ h1
    obtain ⟨b1, b2, b3⟩ := assign_same _ _ _ h
    refine ⟨b1.trans a1, b2.trans a2, ?_⟩
    rw [b3, a3]; simp [Tracer.new]

theorem step_traces (s s1 : Tracer) (e : Event) (c : Time) (h : step s e c = some s1) :
    s1.traces = s.traces ++ (if e.isGotConn then [s1.t] else []) := by
  cases e with
  | GetConn a => simpa [Event.isGotConn] using (GetConn_same s s1 a c h).2.1
  | GotConn reused =>
    obtain ⟨s2, h2, h2tr, _⟩ := GotConn_spec s reused c
    have e2 : s2 = s1 := Option.some.inj (h2.symm.trans h)
    subst e2
    simpa [Event.isGotConn] using h2tr
  | DNSStart => simpa [Event.isGotConn] using (assign_same s s1 _ h).2.1
  | DNSDone => simpa [Event.isGotConn] using (assign_same s s1 _ h).2.1
  | ConnectStart => simpa [Event.isGotConn] using (assign_same s s1 _ h).2.1
  | ConnectDone => simpa [Event.isGotConn] using (assign_same s s1 _ h).2.1
  | WroteRequest => simpa [Event.isGotConn] using (assign_same s s1 _ h).2.1
  | GotFirstResponseByte => simpa [Event.isGotConn] using (assign_same s s1 _ h).2.1

theorem run_cons (s s1 : Tracer) (e : Event) (c : Time) (rest : List (Event × Time))
    (h : run s ((e, c) :: rest) = some s1) :
    ∃ s2, step s e c = some s2 ∧ run s2 rest = some s1 := by
  unfold run at h
  cases h2 : step s e c with
  | none => simp [h2] at h
  | some s2 => exact ⟨s2, rfl, by simpa [h2] using h⟩

theorem run_traces (evs : List (Event × Time)) :
    ∀ (s s1 : Tracer), run s evs = some s1 →
      s1.traces.length = s.traces.length + evs.countP (fun x => x.1.isGotConn) ∧
      ∃ l, s1.traces = s.traces ++ l := by
  induction evs with
  | nil =>
    intro s s1 h
    simp only [run, Option.some.injEq] at h
    subst h
    exact ⟨by simp, [], by simp⟩
  | cons x rest ih =>
    intro s s1 h
    obtain ⟨e, c⟩ := x
    obtain ⟨s2, h2, h3⟩ := run_cons s s1 e c rest h
    obtain ⟨hl, l, hap⟩ := ih s2 s1 h3
    have ht := step_traces s s2 e c h2
    refine ⟨?_, (if e.isGotConn then [s2.t] else []) ++ l, ?_⟩
    · rw [hl, ht, List.countP_cons]
      cases e.isGotConn
      · simp
      · simp; omega
    · rw [hap, ht, List.append_assoc]

/-! ## Closed forms of the steps -/

theorem new_assign_eq (s : Tracer) (f : trace → trace) :
    s.new.assign f =
      some { heap := s.heap ++ [f trace.zero], t := some s.heap.length,
             traces := s.traces } := by
  simp [Tracer.new, Tracer.assign]

theorem GetConn_eq (s : Tracer) (a : String) (c : Time) :
    GetConn s a c =
      some { heap := s.heap ++ [{ trace.zero with start := c, addr := a }],
             t := some s.heap.length, traces := s.traces } := by
  rw [GetConn, new_assign_eq]
  simp [Tracer.assign]

theorem GotConn_true_eq (s : Tracer) (c : Time) :
    GotConn s true c =
      some { heap := s.heap ++ [{ trace.zero with start := c }],
             t := some s.heap.length,
             traces := s.traces ++ [some s.heap.length] } := by
  rw [GotConn, if_pos rfl, new_assign_eq]
  simp [Tracer.append]

theorem GotConn_false_eq (s : Tracer) (c : Time) :
    GotConn s false c = some { s with traces := s.traces ++ [s.t] } := by
  simp [GotConn, Tracer.append]

theorem assign_heap (s s1 : Tracer) (f : trace → trace) (h : s.assign f = some s1) :
    s1.t = s.t ∧ s1.traces = s.traces ∧
      ∃ i r, s.t = some i ∧ s.heap[i]? = some r ∧ s1.heap = s.heap.set i (f r) := by
  obtain ⟨i, r, ht, hr, rfl⟩ := assign_eq s s1 f h
  exact ⟨rfl, rfl, i, r, ht, hr, rfl⟩

theorem step_heap (s s1 : Tracer) (e : Event) (c : Time) (h : step s e c = some s1) :
    (e.creates = true ∧ s1.heap = s.heap ++ [e.created c] ∧
        s1.t = some s.heap.length) ∨
    (e.creates = false ∧ s1.t = s.t ∧
      (s1.heap = s.heap ∨
        ∃ i r, s.t = some i ∧ s.heap[i]? = some r ∧
          s1.heap = s.heap.set i (e.stamp c r))) := by
  cases e with
  | GetConn a =>
    simp only [step, GetConn_eq, Option.some.injEq] at h
    subst h
    exact Or.inl ⟨rfl, rfl, rfl⟩
  | GotConn reused =>
    cases reused with
    | true =>
      simp only [step, GotConn_true_eq, Option.some.injEq] at h
      subst h
      exact Or.inl ⟨rfl, rfl, rfl⟩
    | false =>
      simp only [step, GotConn_false_eq, Option.some.injEq] at h
      subst h
      exact Or.inr ⟨rfl, rfl, Or.inl rfl⟩
  | DNSStart =>
    obtain ⟨h1, _, h3⟩ := assign_heap s s1 _ h
    exact Or.inr ⟨rfl, h1, Or.inr h3⟩
  | DNSDone =>
    obtain ⟨h1, _, h3⟩ := assign_heap s s1 _ h
    exact Or.inr ⟨rfl, h1, Or.inr h3⟩
  | ConnectStart =>
    obtain ⟨h1, _, h3⟩ := assign_heap s s1 _ h
    exact Or.inr ⟨rfl, h1, Or.inr h3⟩
  | ConnectDone =>
    obtain ⟨h1, _, h3⟩ := assign_heap s s1 _ h
    exact Or.inr ⟨rfl, h1, Or.inr h3⟩
  | WroteRequest =>
    obtain ⟨h1, _, h3⟩ := assign_heap s s1 _ h
    exact Or.inr ⟨rfl, h1, Or.inr h3⟩
  | GotFirstResponseByte =>
    obtain ⟨h1, _, h3⟩ := assign_heap s s1 _ h
    exact Or.inr ⟨rfl, h1, Or.inr h3⟩

/-! ## Invariants of the memory along a run -/

theorem heapFrom_append (P : trace → Prop) (n : Nat) (heap : List trace) (x : trace)
    (h : heapFrom P n heap) (hx : P x) : heapFrom P n (heap ++ [x]) := by
  intro j r hn hj
  by_cases hlt : j < heap.length
  · rw [List.getElem?_append_left hlt] at hj
    exact h j r hn hj
  · by_cases heq : j = heap.length
    · subst heq
      simp at hj
      subst hj
      exact hx
    · rw [List.getElem?_eq_none (by simp; omega)] at hj
      cases hj

theorem heapFrom_set (P : trace → Prop) (n : Nat) (heap : List trace) (i : Nat)
    (r v : trace) (h : heapFrom P n heap) (hr : heap[i]? = some r) (hv : P r → P v) :
    heapFrom P n (heap.set i v) := by
  intro j r1 hn hj
  by_cases hij : i = j
  · subst hij
    have hlt : i < heap.length := by
      by_contra hge
      rw [List.getElem?_eq_none (by omega)] at hr
      cases hr
    rw [List.getElem?_set_self hlt] at hj
    cases hj
    exact hv (h i r hn hr)
  · rw [List.getElem?_set_ne hij] at hj
    exact h j r1 hn hj

theorem step_heapFrom (P : trace → Prop) (n : Nat) (s s1 : Tracer) (e : Event)
    (c : Time) (h : step s e c = some s1) (hP : heapFrom P n s.heap)
    (hc : e.creates = true → P (e.created c))
    (hs : ∀ r, P r → P (e.stamp c r)) : heapFrom P n s1.heap := by
  rcases step_heap s s1 e c h with ⟨h1, h2, _⟩ | ⟨_, _, h2 | ⟨i, r, _, hr, h2⟩⟩
  · rw [h2]
    exact heapFrom_append P n _ _ hP (hc h1)
  · rw [h2]
    exact hP
  · rw [h2]
    exact heapFrom_set P n _ i r _ hP hr (hs r)

theorem run_heapFrom (P : trace → Prop) (n : Nat) (evs : List (Event × Time)) :
    ∀ (s s1 : Tracer), run s evs = some s1 → heapFrom P n s.heap →
      (∀ x ∈ evs, x.1.creates = true → P (x.1.created x.2)) →
      (∀ x ∈ evs, ∀ r, P r → P (x.1.stamp x.2 r)) → heapFrom P n s1.heap := by
  induction evs with
  | nil =>
    intro s s1 h hP _ _
    simp only [run, Option.some.injEq] at h
    subst h
    exact hP
  | cons x rest ih =>
    intro s s1 h hP hc hs
    obtain ⟨e, c⟩ := x
    obtain ⟨s2, h2, h3⟩ := run_cons s s1 e c rest h
    refine ih s2 s1 h3 ?_ (fun y hy => hc y (List.mem_cons_of_mem _ hy))
      (fun y hy => hs y (List.mem_cons_of_mem _ hy))
    exact step_heapFrom P n s s2 e c h2 hP (hc (e, c) (List.mem_cons_self _ _))
      (hs (e, c) (List.mem_cons_self _ _))

theorem stamp_start (e : Event) (c : Time) (r : trace) : (e.stamp c r).start = r.start := by
  cases e <;> rfl

theorem created_start (e : Event) (c : Time) : (e.created c).start = c := by
  cases e <;> rfl

theorem fresh_wf : fresh.wf := by
  refine ⟨?_, ?_⟩
  · intro i h
    cases h
  · intro p hp
    simp [fresh, WithTraces] at hp

theorem step_wf (s s1 : Tracer) (e : Event) (c : Time) (h : step s e c = some s1)
    (hw : s.wf) : s1.wf := by
  have hlen : s.heap.length ≤ s1.heap.length ∧ s1.valid s1.t := by
    rcases step_heap s s1 e c h with ⟨_, h2, h3⟩ | ⟨_, h1, h2 | ⟨i, r, _, _, h2⟩⟩
    · refine ⟨by rw [h2]; simp, ?_⟩
      intro i hi
      rw [h3] at hi
      cases hi
      rw [h2]; simp
    · refine ⟨by rw [h2], ?_⟩
      intro i hi
      rw [h1] at hi
      rw [h2]
      exact hw.1 i hi
    · refine ⟨by rw [h2]; simp, ?_⟩
      intro i hi
      rw [h1] at hi
      rw [h2]
      simpa using hw.1 i hi
  refine ⟨hlen.2, ?_⟩
  intro p hp
  rw [step_traces s s1 e c h, List.mem_append] at hp
  rcases hp with hp | hp
  · intro i hi
    exact Nat.lt_of_lt_of_le (hw.2 p hp i hi) hlen.1
  · by_cases hg : e.isGotConn = true
    · simp only [hg, if_true, List.mem_singleton] at hp
      rw [hp]
      exact hlen.2
    · simp [hg] at hp

theorem run_wf (evs : List (Event × Time)) :
    ∀ (s s1 : Tracer), run s evs = some s1 → s.wf → s1.wf := by
  induction evs with
  | nil =>
    intro s s1 h hw
    simp only [run, Option.some.injEq] at h
    subst h
    exact hw
  | cons x rest ih =>
    intro s s1 h hw
    obtain ⟨e, c⟩ := x
    obtain ⟨s2, h2, h3⟩ := run_cons s s1 e c rest h
    exact ih s2 s1 h3 (step_wf s s2 e c h2 hw)

theorem valid_deref (s : Tracer) (j : Nat) (h : j < s.heap.length) :
    s.deref (some j) ≠ none := by
  simp [Tracer.deref, List.getElem?_eq_getElem h]

/-- C4, as stated, fails: two reused connections acquired at the same clock reading 5.
The second GotConn appends a record with start = 5 while the entry appended before it
also has start = 5. -/
theorem C4_counterexample :
    run fresh [(.GotConn true, 5)] =
      some { heap := [⟨"", 5, 0, 0, 0, 0, 0, 0⟩], t := some 0, traces := [some 0] } ∧
    GotConn { heap := [⟨"", 5, 0, 0, 0, 0, 0, 0⟩], t := some 0, traces := [some 0] }
        true 5 =
      some { heap := [⟨"", 5, 0, 0, 0, 0, 0, 0⟩, ⟨"", 5, 0, 0, 0, 0, 0, 0⟩],
             t := some 1, traces := [some 0, some 1] } ∧
    (({ heap := [⟨"", 5, 0, 0, 0, 0, 0, 0⟩, ⟨"", 5, 0, 0, 0, 0, 0, 0⟩],
        t := some 1, traces := [some 0, some 1] } : Tracer).deref (some 0)).map
          trace.Start = some 5 ∧
    (({ heap := [⟨"", 5, 0, 0, 0, 0, 0, 0⟩, ⟨"", 5, 0, 0, 0, 0, 0, 0⟩],
        t := some 1, traces := [some 0, some 1] } : Tracer).deref (some 1)).map
          trace.Start = some 5 := by
  decide

/-- C4, amended: on every state reached by a completed run from the tracer attached to
an empty list, GotConn with reused = true at clock reading `c` succeeds and appends
one newly allocated record whose start is `c`; if `c` differs from the clock reading of
every earlier creating event (GetConn, or GotConn with reused = true), that start
differs from the start of every record appended to the trace list before. -/
theorem C4_reused_start (evs : List (Event × Time)) (s : Tracer) (c : Time)
    (hrun : run fresh evs = some s)
    (hclock : ∀ x ∈ evs, x.1.creates = true → x.2 ≠ c) :
    ∃ s1 r1, GotConn s true c = some s1 ∧ s1.traces = s.traces ++ [s1.t] ∧
      s.deref s1.t = none ∧ s1.deref s1.t = some r1 ∧ r1.Start = c ∧
      ∀ q ∈ s.traces, ∀ r, s1.deref q = some r → r.Start ≠ c := by
  have hinv : heapFrom (fun r => r.start ≠ c) 0 s.heap := by
    refine run_heapFrom _ 0 evs fresh s hrun ?_ ?_ ?_
    · intro j r _ hj
      simp [fresh, WithTraces] at hj
    · intro x hx hcr
      rw [created_start]
      exact hclock x hx hcr
    · intro x _ r hr
      rw [stamp_start]
      exact hr
  have hw : s.wf := run_wf evs fresh s hrun fresh_wf
  obtain ⟨s1, h1, h2, _, h4⟩ := GotConn_spec s true c
  obtain ⟨h4t, h4c, h4l, h4o⟩ := h4 rfl
  refine ⟨s1, _, h1, h2, ?_, h4c, rfl, ?_⟩
  · rw [h4t]
    exact deref_length s
  · intro q hq r hr
    cases q with
    | none => simp [Tracer.deref] at hr
    | some j =>
      have hj : j < s.heap.length := hw.2 _ hq j rfl
      rw [h4o _ (valid_deref s j hj)] at hr
      exact hinv j r (Nat.zero_le _) hr

/-- Witness of C4: after a dialled connection created at time 1, a reused one is
acquired at time 9. -/
theorem C4_reused_start_witness :
    run fresh [(.GetConn "h:80", 1), (.GotConn false, 2), (.WroteRequest, 9)] =
      some { heap := [⟨"h:80", 1, 0, 0, 0, 0, 9, 0⟩], t := some 0, traces := [some 0] } ∧
    ∃ s1 r1,
      GotConn { heap := [⟨"h:80", 1, 0, 0, 0, 0, 9, 0⟩], t := some 0, traces := [some 0] }
        true 9 = some s1 ∧
      s1.traces = [some 0] ++ [s1.t] ∧ s1.deref s1.t = some r1 ∧ r1.Start = 9 := by
  refine ⟨by decide, ?_⟩
  obtain ⟨s1, r1, h1, h2, _, h4, h5, _⟩ :=
    C4_reused_start [(.GetConn "h:80", 1), (.GotConn false, 2), (.WroteRequest, 9)]
      { heap := [⟨"h:80", 1, 0, 0, 0, 0, 9, 0⟩], t := some 0, traces := [some 0] } 9
      (by decide) (by decide)
  exact ⟨s1, r1, h1, h2, h4, h5⟩

/-- C5: on a state with a current record `r`, GotConn with reused = false succeeds and
changes no record at all; the entry it appends is the captured pointer itself, it
still reads as `r` (same addr, start and six phase timestamps), and the captured
pointer stays the same, so the appended record remains the current one. -/
theorem C5_GotConn_not_reused_keeps (s : Tracer) (r : trace) (c : Time)
    (hcur : s.deref s.t = some r) :
    ∃ s1, GotConn s false c = some s1 ∧ s1.traces = s.traces ++ [s.t] ∧
      s1.t = s.t ∧ s1.deref s1.t = some r ∧ ∀ p, s1.deref p = s.deref p := by
  refine ⟨{ s with traces := s.traces ++ [s.t] }, GotConn_false_eq s c, rfl, rfl, ?_, ?_⟩
  · exact hcur
  · intro p
    rfl

/-- Witness of C5: a record for "h:80" with DNS and connect stamps is acquired. -/
theorem C5_GotConn_not_reused_keeps_witness :
    ∃ s1, GotConn { heap := [⟨"h:80", 1, 2, 3, 4, 5, 0, 0⟩], t := some 0, traces := [] }
        false 6 = some s1 ∧
      s1.traces = [] ++ [some 0] ∧ s1.t = some 0 ∧
      s1.deref s1.t = some ⟨"h:80", 1, 2, 3, 4, 5, 0, 0⟩ := by
  obtain ⟨s1, h1, h2, h3, h4, _⟩ :=
    C5_GotConn_not_reused_keeps
      { heap := [⟨"h:80", 1, 2, 3, 4, 5, 0, 0⟩], t := some 0, traces := [] }
      ⟨"h:80", 1, 2, 3, 4, 5, 0, 0⟩ 6 rfl
  exact ⟨s1, h1, h2, h3, h4⟩

/-- C6: on every state, whatever the captured pointer was, GotConn with reused = true
at clock reading `c` succeeds and appends exactly one entry, a record at an address
not allocated before whose addr is the empty string, whose start is `c` and whose
dnsStart, dnsEnd, tcpStart, tcpEnd, waitStart, waitEnd are zero; the record that was
current before is not the appended one and, like every existing record, is left
unchanged. -/
theorem C6_GotConn_reused_fresh (s : Tracer) (c : Time) :
    ∃ s1, GotConn s true c = some s1 ∧ s1.traces = s.traces ++ [s1.t] ∧
      s1.deref s1.t = some
        { addr := "", start := c, dnsStart := 0, dnsEnd := 0, tcpStart := 0, tcpEnd := 0,
          waitStart := 0, waitEnd := 0 } ∧
      s.deref s1.t = none ∧
      (s.deref s.t ≠ none → s1.t ≠ s.t) ∧
      ∀ p, s.deref p ≠ none → s1.deref p = s.deref p := by
  obtain ⟨s1, h1, h2, _, h4⟩ := GotConn_spec s true c
  obtain ⟨h4t, h4c, _, h4o⟩ := h4 rfl
  have hnew : s.deref s1.t = none := by
    rw [h4t]
    exact deref_length s
  refine ⟨s1, h1, h2, h4c, hnew, ?_, h4o⟩
  intro hcur e
  rw [e] at hnew
  exact hcur hnew

/-- Witness of C6: a record dialled for "h:80" and stamped by DNS and connect events
is discarded when a pooled connection is acquired at time 6. -/
theorem C6_GotConn_reused_fresh_witness :
    ({ heap := [⟨"h:80", 1, 2, 3, 4, 5, 0, 0⟩], t := some 0, traces := [] } :
        Tracer).deref (some 0) ≠ none ∧
    ∃ s1, GotConn { heap := [⟨"h:80", 1, 2, 3, 4, 5, 0, 0⟩], t := some 0, traces := [] }
        true 6 = some s1 ∧
      s1.traces = [] ++ [s1.t] ∧ s1.deref s1.t = some ⟨"", 6, 0, 0, 0, 0, 0, 0⟩ ∧
      s1.t ≠ some 0 := by
  have hcur : ({ heap := [⟨"h:80", 1, 2, 3, 4, 5, 0, 0⟩], t := some 0, traces := [] } :
      Tracer).deref (some 0) ≠ none := by decide
  obtain ⟨s1, h1, h2, h3, _, h5, _⟩ :=
    C6_GotConn_reused_fresh
      { heap := [⟨"h:80", 1, 2, 3, 4, 5, 0, 0⟩], t := some 0, traces := [] } 6
  exact ⟨hcur, s1, h1, h2, h3, h5 hcur⟩

/-! ## The queries -/

theorem call_deref {α : Type} (s : Tracer) (q : Option Nat) (r : trace) (m : trace → α)
    (h : s.deref q = some r) : s.call q m = some (m r, s) := by
  simp [Tracer.call, h]

/-- C7, as stated, fails: the record of a reused connection acquired at the clock
reading T0 + 5, with waitStart not stamped, queried at T0 + 7. TimeResponse is not the
difference now − waitStart = T0 + 7 but the largest Duration, and TimeTotal, between
two clock readings, is the difference 2. -/
theorem C7_counterexample :
    run fresh [(.GotConn true, T0 + 5)] =
      some { heap := [⟨"", T0 + 5, 0, 0, 0, 0, 0, 0⟩], t := some 0,
             traces := [some 0] } ∧
    trace.TimeResponse ⟨"", T0 + 5, 0, 0, 0, 0, 0, 0⟩ (T0 + 7) = 9223372036854775807 ∧
    trace.TimeResponse ⟨"", T0 + 5, 0, 0, 0, 0, 0, 0⟩ (T0 + 7) ≠ (T0 + 7) - 0 ∧
    trace.TimeTotal ⟨"", T0 + 5, 0, 0, 0, 0, 0, 0⟩ (T0 + 7) = 2 := by
  decide

/-- C7, amended: for every record and every time `now`, each of the six queries equals
its defining difference (TimeDNS: dnsEnd − dnsStart, TimeConnect: tcpEnd − tcpStart,
TimeWait: waitEnd − waitStart, TimeResponse(now): now − waitStart, TimeDownload(now):
now − waitEnd, TimeTotal(now): now − start) saturated to the range of a Duration,
[minDuration, maxDuration], hence the difference itself whenever it lies in that range;
and a call of any of them on a pointer to the record returns that value and leaves the
state (the record included) as it was. -/
theorem C7_queries (s : Tracer) (p : Option Nat) (r : trace) (now : Time)
    (hp : s.deref p = some r) :
    (r.TimeDNS = max minDuration (min maxDuration (r.dnsEnd - r.dnsStart)) ∧
      r.TimeConnect = max minDuration (min maxDuration (r.tcpEnd - r.tcpStart)) ∧
      r.TimeWait = max minDuration (min maxDuration (r.waitEnd - r.waitStart)) ∧
      r.TimeResponse now = max minDuration (min maxDuration (now - r.waitStart)) ∧
      r.TimeDownload now = max minDuration (min maxDuration (now - r.waitEnd)) ∧
      r.TimeTotal now = max minDuration (min maxDuration (now - r.start))) ∧
    ((inRange r.dnsEnd r.dnsStart → r.TimeDNS = r.dnsEnd - r.dnsStart) ∧
      (inRange r.tcpEnd r.tcpStart → r.TimeConnect = r.tcpEnd - r.tcpStart) ∧
      (inRange r.waitEnd r.waitStart → r.TimeWait = r.waitEnd - r.waitStart) ∧
      (inRange now r.waitStart → r.TimeResponse now = now - r.waitStart) ∧
      (inRange now r.waitEnd → r.TimeDownload now = now - r.waitEnd) ∧
      (inRange now r.start → r.TimeTotal now = now - r.start)) ∧
    (s.call p trace.TimeDNS = some (r.TimeDNS, s) ∧
      s.call p trace.TimeConnect = some (r.TimeConnect, s) ∧
      s.call p trace.TimeWait = some (r.TimeWait, s) ∧
      s.call p (fun t => t.TimeResponse now) = some (r.TimeResponse now, s) ∧
      s.call p (fun t => t.TimeDownload now) = some (r.TimeDownload now, s) ∧
      s.call p (fun t => t.TimeTotal now) = some (r.TimeTotal now, s)) :=
  ⟨⟨Sub_clamp _ _, Sub_clamp _ _, Sub_clamp _ _, Sub_clamp _ _, Sub_clamp _ _,
      Sub_clamp _ _⟩,
    ⟨Sub_inRange _ _, Sub_inRange _ _, Sub_inRange _ _, Sub_inRange _ _,
      Sub_inRange _ _, Sub_inRange _ _⟩,
    ⟨call_deref s p r _ hp, call_deref s p r _ hp, call_deref s p r _ hp,
      call_deref s p r _ hp, call_deref s p r _ hp, call_deref s p r _ hp⟩⟩

/-- Witness of C7: the record of the fresh-connection scenario at real clock readings,
queried 60 ms after its start. -/
theorem C7_queries_witness :
    inRange (T0 + 5 * Millisecond) (T0 + 1 * Millisecond) ∧
    trace.TimeDNS ⟨"h:80", T0, T0 + 1 * Millisecond, T0 + 5 * Millisecond,
        T0 + 5 * Millisecond, T0 + 15 * Millisecond, T0 + 16 * Millisecond,
        T0 + 50 * Millisecond⟩ =
      (T0 + 5 * Millisecond) - (T0 + 1 * Millisecond) ∧
    Tracer.call
        { heap := [⟨"h:80", T0, T0 + 1 * Millisecond, T0 + 5 * Millisecond,
            T0 + 5 * Millisecond, T0 + 15 * Millisecond, T0 + 16 * Millisecond,
            T0 + 50 * Millisecond⟩], t := some 0, traces := [some 0] }
        (some 0) trace.TimeWait =
      some (trace.TimeWait ⟨"h:80", T0, T0 + 1 * Millisecond, T0 + 5 * Millisecond,
          T0 + 5 * Millisecond, T0 + 15 * Millisecond, T0 + 16 * Millisecond,
          T0 + 50 * Millisecond⟩,
        { heap := [⟨"h:80", T0, T0 + 1 * Millisecond, T0 + 5 * Millisecond,
            T0 + 5 * Millisecond, T0 + 15 * Millisecond, T0 + 16 * Millisecond,
            T0 + 50 * Millisecond⟩], t := some 0, traces := [some 0] }) ∧
    trace.TimeWait ⟨"h:80", T0, T0 + 1 * Millisecond, T0 + 5 * Millisecond,
        T0 + 5 * Millisecond, T0 + 15 * Millisecond, T0 + 16 * Millisecond,
        T0 + 50 * Millisecond⟩ = 34 * Millisecond :=
  have hr : inRange (T0 + 5 * Millisecond) (T0 + 1 * Millisecond) := by
    unfold inRange
    decide
  have h := C7_queries
    { heap := [⟨"h:80", T0, T0 + 1 * Millisecond, T0 + 5 * Millisecond,
        T0 + 5 * Millisecond, T0 + 15 * Millisecond, T0 + 16 * Millisecond,
        T0 + 50 * Millisecond⟩], t := some 0, traces := [some 0] }
    (some 0) ⟨"h:80", T0, T0 + 1 * Millisecond, T0 + 5 * Millisecond,
      T0 + 5 * Millisecond, T0 + 15 * Millisecond, T0 + 16 * Millisecond,
      T0 + 50 * Millisecond⟩ (T0 + 60 * Millisecond) rfl
  ⟨hr, h.2.1.1 hr, h.2.2.2.2.1, by decide⟩

/-- C8: for every record and every time `now`, the snapshot taken at `now` has exactly
the fields TimeDNS = TimeDNS(), TimeConnect = TimeConnect(), TimeWait = TimeWait(),
TimeResponse = TimeResponse(now), TimeDownload = TimeDownload(now), TimeTotal =
TimeTotal(now), the three now-dependent fields from the same `now`; so two snapshots
of the same record at the same `now` are identical. -/
theorem C8_snapshot (r : trace) (now : Time) :
    (r.Stats now).TimeDNS = r.TimeDNS ∧
    (r.Stats now).TimeConnect = r.TimeConnect ∧
    (r.Stats now).TimeWait = r.TimeWait ∧
    (r.Stats now).TimeResponse = r.TimeResponse now ∧
    (r.Stats now).TimeDownload = r.TimeDownload now ∧
    (r.Stats now).TimeTotal = r.TimeTotal now ∧
    (∀ (r1 : trace) (now1 : Time), r1 = r → now1 = now → r1.Stats now1 = r.Stats now) := by
  refine ⟨rfl, rfl, rfl, rfl, rfl, rfl, ?_⟩
  intro r1 now1 hr hn
  rw [hr, hn]

/-- Witness of C8: two snapshots of one record at the same time 60. -/
theorem C8_snapshot_witness :
    trace.Stats ⟨"h:80", 0, 1, 5, 5, 15, 16, 50⟩ 60 =
      trace.Stats ⟨"h:80", 0, 1, 5, 5, 15, 16, 50⟩ 60 ∧
    trace.Stats ⟨"h:80", 0, 1, 5, 5, 15, 16, 50⟩ 60 = ⟨4, 10, 34, 44, 10, 60⟩ :=
  ⟨(C8_snapshot ⟨"h:80", 0, 1, 5, 5, 15, 16, 50⟩ 60).2.2.2.2.2.2
      ⟨"h:80", 0, 1, 5, 5, 15, 16, 50⟩ 60 rfl rfl, by decide⟩

/-- C9: for every record whose timestamps satisfy start ≤ dnsStart ≤ dnsEnd ≤ tcpStart
≤ tcpEnd ≤ waitStart ≤ waitEnd and every time now ≥ waitEnd, every derived duration
is ≥ 0: TimeDNS, TimeConnect, TimeWait, TimeResponse(now), TimeDownload(now) and
TimeTotal(now). -/
theorem C9_durations_nonneg (r : trace) (now : Time)
    (h1 : r.start ≤ r.dnsStart) (h2 : r.dnsStart ≤ r.dnsEnd) (h3 : r.dnsEnd ≤ r.tcpStart)
    (h4 : r.tcpStart ≤ r.tcpEnd) (h5 : r.tcpEnd ≤ r.waitStart)
    (h6 : r.waitStart ≤ r.waitEnd) (hnow : r.waitEnd ≤ now) :
    0 ≤ r.TimeDNS ∧ 0 ≤ r.TimeConnect ∧ 0 ≤ r.TimeWait ∧ 0 ≤ r.TimeResponse now ∧
      0 ≤ r.TimeDownload now ∧ 0 ≤ r.TimeTotal now := by
  have e1 : r.start ≤ r.waitStart := le_trans h1 (le_trans h2 (le_trans h3 (le_trans h4 h5)))
  exact ⟨Sub_nonneg _ _ h2, Sub_nonneg _ _ h4, Sub_nonneg _ _ h6,
    Sub_nonneg _ _ (le_trans h6 hnow), Sub_nonneg _ _ hnow,
    Sub_nonneg _ _ (le_trans e1 (le_trans h6 hnow))⟩

/-- Witness of C9: the record of the fresh-connection scenario, queried at 60. -/
theorem C9_durations_nonneg_witness :
    0 ≤ trace.TimeDNS ⟨"h:80", 0, 1, 5, 5, 15, 16, 50⟩ ∧
    0 ≤ trace.TimeConnect ⟨"h:80", 0, 1, 5, 5, 15, 16, 50⟩ ∧
    0 ≤ trace.TimeWait ⟨"h:80", 0, 1, 5, 5, 15, 16, 50⟩ ∧
    0 ≤ trace.TimeResponse ⟨"h:80", 0, 1, 5, 5, 15, 16, 50⟩ 60 ∧
    0 ≤ trace.TimeDownload ⟨"h:80", 0, 1, 5, 5, 15, 16, 50⟩ 60 ∧
    0 ≤ trace.TimeTotal ⟨"h:80", 0, 1, 5, 5, 15, 16, 50⟩ 60 :=
  C9_durations_nonneg ⟨"h:80", 0, 1, 5, 5, 15, 16, 50⟩ 60 (by decide) (by decide)
    (by decide) (by decide) (by decide) (by decide) (by decide)

/-! ## Runs that start by creating a record -/

theorem step_total (s : Tracer) (e : Event) (c : Time)
    (h : s.deref s.t ≠ none ∨ e.creates = true) : ∃ s1, step s e c = some s1 := by
  have hassign : ∀ f : trace → trace, e.creates = false → ∃ s1, s.assign f = some s1 := by
    intro f hc
    rcases h with h | h
    · cases hr : s.deref s.t with
      | none => exact absurd hr h
      | some r =>
        obtain ⟨s1, h1, _⟩ := assign_cur s f r hr
        exact ⟨s1, h1⟩
    · rw [hc] at h
      cases h
  cases e with
  | GetConn a => exact ⟨_, GetConn_eq s a c⟩
  | GotConn reused =>
    obtain ⟨s1, h1, _⟩ := GotConn_spec s reused c
    exact ⟨s1, h1⟩
  | DNSStart => exact hassign _ rfl
  | DNSDone => exact hassign _ rfl
  | ConnectStart => exact hassign _ rfl
  | ConnectDone => exact hassign _ rfl
  | WroteRequest => exact hassign _ rfl
  | GotFirstResponseByte => exact hassign _ rfl

theorem pointsFrom_deref (s : Tracer) (n : Nat) (q : Option Nat) (h : s.pointsFrom n q) :
    s.deref q ≠ none := by
  obtain ⟨j, rfl, _, hj⟩ := h
  exact valid_deref s j hj

theorem step_from (n : Nat) (s : Tracer) (e : Event) (c : Time)
    (h : s.pointsFrom n s.t ∨ (e.creates = true ∧ n ≤ s.heap.length)) :
    ∃ s1, step s e c = some s1 ∧ s1.pointsFrom n s1.t ∧
      s.heap.length ≤ s1.heap.length := by
  have htot : ∃ s1, step s e c = some s1 := by
    apply step_total
    rcases h with h | h
    · exact Or.inl (pointsFrom_deref s n _ h)
    · exact Or.inr h.1
  obtain ⟨s1, h1⟩ := htot
  refine ⟨s1, h1, ?_⟩
  have hn : n ≤ s.heap.length := by
    rcases h with ⟨j, _, h2, h3⟩ | h
    · omega
    · exact h.2
  rcases step_heap s s1 e c h1 with ⟨_, h2, h3⟩ | ⟨hc, ht, hh⟩
  · refine ⟨⟨s.heap.length, h3, hn, ?_⟩, ?_⟩ <;> rw [h2] <;> simp
  · have hcur : s.pointsFrom n s.t := by
      rcases h with h | h
      · exact h
      · rw [hc] at h
        cases h.1
    have hlen : s1.heap.length = s.heap.length := by
      rcases hh with h2 | ⟨i, r, _, _, h2⟩ <;> rw [h2]
      simp
    obtain ⟨j, hj, hnj, hjl⟩ := hcur
    exact ⟨⟨j, ht.trans hj, hnj, by omega⟩, by omega⟩

theorem run_from (n : Nat) (evs : List (Event × Time)) :
    ∀ (s : Tracer), s.pointsFrom n s.t →
      ∃ s1 l, run s evs = some s1 ∧ s1.pointsFrom n s1.t ∧
        s.heap.length ≤ s1.heap.length ∧ s1.traces = s.traces ++ l ∧
        ∀ q ∈ l, s1.pointsFrom n q := by
  induction evs with
  | nil =>
    intro s hs
    exact ⟨s, [], rfl, hs, Nat.le_refl _, by simp, by simp⟩
  | cons x rest ih =>
    intro s hs
    obtain ⟨e, c⟩ := x
    obtain ⟨s2, h2, hs2, hl2⟩ := step_from n s e c (Or.inl hs)
    obtain ⟨s1, l, h1, hs1, hl1, ht1, hq1⟩ := ih s2 hs2
    refine ⟨s1, (if e.isGotConn then [s2.t] else []) ++ l, ?_, hs1, by omega, ?_, ?_⟩
    · simp [run, h2, h1]
    · rw [ht1, step_traces s s2 e c h2, List.append_assoc]
    · intro q hq
      rw [List.mem_append] at hq
      rcases hq with hq | hq
      · by_cases hg : e.isGotConn = true
        · simp only [hg, if_true, List.mem_singleton] at hq
          obtain ⟨j, hj, hnj, hjl⟩ := hs2
          exact ⟨j, hq.trans hj, hnj, by omega⟩
        · simp [hg] at hq
      · exact hq1 q hq

theorem created_phase (e : Event) (c : Time) :
    ((e.created c).dnsStart = 0 ∧ (e.created c).dnsEnd = 0) ∧
      ((e.created c).tcpStart = 0 ∧ (e.created c).tcpEnd = 0) := by
  cases e <;> exact ⟨⟨rfl, rfl⟩, rfl, rfl⟩

theorem stamp_dns (e : Event) (c : Time) (r : trace) (he : e.isDNS = false)
    (h : r.dnsStart = 0 ∧ r.dnsEnd = 0) :
    (e.stamp c r).dnsStart = 0 ∧ (e.stamp c r).dnsEnd = 0 := by
  cases e <;> first | exact h | cases he

theorem stamp_connect (e : Event) (c : Time) (r : trace) (he : e.isConnect = false)
    (h : r.tcpStart = 0 ∧ r.tcpEnd = 0) :
    (e.stamp c r).tcpStart = 0 ∧ (e.stamp c r).tcpEnd = 0 := by
  cases e <;> first | exact h | cases he

theorem heapFrom_length (P : trace → Prop) (heap : List trace) :
    heapFrom P heap.length heap := by
  intro j r hj hr
  rw [List.getElem?_eq_none hj] at hr
  cases hr

theorem creates_phase (e : Event) (h : e.creates = true) :
    e.isDNS = false ∧ e.isConnect = false := by
  cases e <;> first | exact ⟨rfl, rfl⟩ | cases h

/-- C3: on every state and for either value of the reused flag, GotConn succeeds and
turns the trace list L into L followed by exactly one entry, the current pointer after
the call (the kept one when not reused, a newly allocated one when reused); a handler
other than GotConn leaves the list as it is; a completed run of any event sequence
keeps the existing entries in place and adds as many entries as the sequence has
GotConn events, so from the tracer attached to an empty list the length is exactly the
number N of GotConn events; and every sequence that begins with a creating event does
complete, with that length. -/
theorem C3_GotConn_appends_one :
    (∀ (s : Tracer) (reused : Bool) (c : Time), ∃ s1, GotConn s reused c = some s1 ∧
        s1.traces = s.traces ++ [s1.t] ∧
        (reused = false → s1.t = s.t) ∧
        (reused = true → s1.t = some s.heap.length ∧ s.deref s1.t = none)) ∧
    (∀ (s s1 : Tracer) (e : Event) (c : Time), e.isGotConn = false →
        step s e c = some s1 → s1.traces = s.traces) ∧
    (∀ (s s1 : Tracer) (evs : List (Event × Time)), run s evs = some s1 →
        s1.traces.length = s.traces.length + evs.countP (fun x => x.1.isGotConn) ∧
        ∃ l, s1.traces = s.traces ++ l) ∧
    (∀ (s1 : Tracer) (evs : List (Event × Time)), run fresh evs = some s1 →
        s1.traces.length = evs.countP (fun x => x.1.isGotConn)) ∧
    (∀ (e : Event) (c : Time) (rest : List (Event × Time)), e.creates = true →
        ∃ s1, run fresh ((e, c) :: rest) = some s1 ∧
          s1.traces.length = ((e, c) :: rest).countP (fun x => x.1.isGotConn)) := by
  refine ⟨?_, ?_, ?_, ?_, ?_⟩
  · intro s reused c
    obtain ⟨s1, h1, h2, h3, h4⟩ := GotConn_spec s reused c
    refine ⟨s1, h1, h2, fun h => (h3 h).1, fun h => ⟨(h4 h).1, ?_⟩⟩
    rw [(h4 h).1]
    exact deref_length s
  · intro s s1 e c he h
    simpa [he] using step_traces s s1 e c h
  · intro s s1 evs h
    exact run_traces evs s s1 h
  · intro s1 evs h
    simpa [fresh, WithTraces] using (run_traces evs fresh s1 h).1
  · intro e c rest he
    obtain ⟨s2, h2, hs2, _⟩ := step_from 0 fresh e c (Or.inr ⟨he, Nat.zero_le _⟩)
    obtain ⟨s1, l, h1, _⟩ := run_from 0 rest s2 hs2
    have hrun : run fresh ((e, c) :: rest) = some s1 := by simp [run, h2, h1]
    refine ⟨s1, hrun, ?_⟩
    simpa [fresh, WithTraces] using (run_traces _ fresh s1 hrun).1

/-- Witness of C3: a reused connection followed by a dialled one; two GotConn events,
two entries. -/
theorem C3_GotConn_appends_one_witness :
    run fresh [(.GotConn true, 1), (.WroteRequest, 2), (.GetConn "h:80", 3),
        (.GotConn false, 4)] =
      some { heap := [⟨"", 1, 0, 0, 0, 0, 2, 0⟩, ⟨"h:80", 3, 0, 0, 0, 0, 0, 0⟩],
             t := some 1, traces := [some 0, some 1] } ∧
    Event.isGotConn .WroteRequest = false ∧
    Event.creates (.GotConn true) = true ∧
    step { heap := [⟨"", 1, 0, 0, 0, 0, 0, 0⟩], t := some 0, traces := [some 0] }
        .WroteRequest 2 =
      some { heap := [⟨"", 1, 0, 0, 0, 0, 2, 0⟩], t := some 0, traces := [some 0] } ∧
    ({ heap := [⟨"", 1, 0, 0, 0, 0, 2, 0⟩, ⟨"h:80", 3, 0, 0, 0, 0, 0, 0⟩],
       t := some 1, traces := [some 0, some 1] } : Tracer).traces.length = 2 ∧
    ({ heap := [⟨"", 1, 0, 0, 0, 0, 2, 0⟩], t := some 0, traces := [some 0] } :
        Tracer).traces = [some 0] ∧
    ∃ s1, run fresh [(.GotConn true, 1), (.WroteRequest, 2), (.GetConn "h:80", 3),
        (.GotConn false, 4)] = some s1 ∧ s1.traces.length = 2 :=
  ⟨by decide, by decide, by decide, by decide,
    C3_GotConn_appends_one.2.2.2.1 _
      [(.GotConn true, 1), (.WroteRequest, 2), (.GetConn "h:80", 3), (.GotConn false, 4)]
      (by decide),
    C3_GotConn_appends_one.2.1
      { heap := [⟨"", 1, 0, 0, 0, 0, 0, 0⟩], t := some 0, traces := [some 0] } _
      .WroteRequest 2 (by decide) (by decide),
    C3_GotConn_appends_one.2.2.2.2 (.GotConn true) 1
      [(.WroteRequest, 2), (.GetConn "h:80", 3), (.GotConn false, 4)] (by decide)⟩

/-- C10: from every state, a sequence that begins with a creating event (GetConn, or
GotConn with reused = true) runs to completion; the current pointer and every entry
the sequence appends to the trace list point to records the sequence allocated; and if
neither DNSStart nor DNSDone fires after the first event, every record the sequence
allocated has TimeDNS() = 0, likewise TimeConnect() = 0 if neither ConnectStart nor
ConnectDone fires. -/
theorem C10_unfired_phase_zero (s : Tracer) (e : Event) (c : Time)
    (rest : List (Event × Time)) (hfirst : e.creates = true) :
    ∃ s1 l, run s ((e, c) :: rest) = some s1 ∧ s1.traces = s.traces ++ l ∧
      (∀ q, q = s1.t ∨ q ∈ l → s1.pointsFrom s.heap.length q) ∧
      ((∀ x ∈ rest, x.1.isDNS = false) →
        ∀ q r, s1.pointsFrom s.heap.length q → s1.deref q = some r → r.TimeDNS = 0) ∧
      ((∀ x ∈ rest, x.1.isConnect = false) →
        ∀ q r, s1.pointsFrom s.heap.length q → s1.deref q = some r →
          r.TimeConnect = 0) := by
  obtain ⟨s2, h2, hs2, hl2⟩ :=
    step_from s.heap.length s e c (Or.inr ⟨hfirst, Nat.le_refl _⟩)
  obtain ⟨s1, l, h1, hs1, hl1, ht1, hq1⟩ := run_from s.heap.length rest s2 hs2
  have hrun : run s ((e, c) :: rest) = some s1 := by simp [run, h2, h1]
  have hall : ∀ q ∈ (if e.isGotConn then [s2.t] else []) ++ l,
      s1.pointsFrom s.heap.length q := by
    intro q hq
    rw [List.mem_append] at hq
    rcases hq with hq | hq
    · by_cases hg : e.isGotConn = true
      · simp only [hg, if_true, List.mem_singleton] at hq
        obtain ⟨j, hj, hnj, hjl⟩ := hs2
        exact ⟨j, hq.trans hj, hnj, by omega⟩
      · simp [hg] at hq
    · exact hq1 q hq
  refine ⟨s1, (if e.isGotConn then [s2.t] else []) ++ l, hrun, ?_, ?_, ?_, ?_⟩
  · rw [ht1, step_traces s s2 e c h2, List.append_assoc]
  · intro q hq
    rcases hq with hq | hq
    · rw [hq]; exact hs1
    · exact hall q hq
  · intro hno q r hq hr
    have hinv := run_heapFrom (fun r => r.dnsStart = 0 ∧ r.dnsEnd = 0) s.heap.length
      ((e, c) :: rest) s s1 hrun (heapFrom_length _ _)
      (fun x _ _ => (created_phase x.1 x.2).1)
      (fun x hx r hr => by
        rcases List.mem_cons.mp hx with hx | hx
        · rw [hx]; exact stamp_dns e c r (creates_phase e hfirst).1 hr
        · exact stamp_dns x.1 x.2 r (hno x hx) hr)
    obtain ⟨j, rfl, hj, _⟩ := hq
    obtain ⟨z1, z2⟩ := hinv j r hj hr
    rw [trace.TimeDNS, z1, z2]
    exact Sub_zero_zero
  · intro hno q r hq hr
    have hinv := run_heapFrom (fun r => r.tcpStart = 0 ∧ r.tcpEnd = 0) s.heap.length
      ((e, c) :: rest) s s1 hrun (heapFrom_length _ _)
      (fun x _ _ => (created_phase x.1 x.2).2)
      (fun x hx r hr => by
        rcases List.mem_cons.mp hx with hx | hx
        · rw [hx]; exact stamp_connect e c r (creates_phase e hfirst).2 hr
        · exact stamp_connect x.1 x.2 r (hno x hx) hr)
    obtain ⟨j, rfl, hj, _⟩ := hq
    obtain ⟨z1, z2⟩ := hinv j r hj hr
    rw [trace.TimeConnect, z1, z2]
    exact Sub_zero_zero

/-- Witness of C10: a reused connection, with only WroteRequest and
GotFirstResponseByte after its acquisition. -/
theorem C10_unfired_phase_zero_witness :
    Event.creates (.GotConn true) = true ∧
    run fresh [(.GotConn true, 0), (.WroteRequest, 1), (.GotFirstResponseByte, 20)] =
      some { heap := [⟨"", 0, 0, 0, 0, 0, 1, 20⟩], t := some 0, traces := [some 0] } ∧
    ∃ s1 l,
      run fresh [(.GotConn true, 0), (.WroteRequest, 1), (.GotFirstResponseByte, 20)] =
        some s1 ∧
      s1.traces = fresh.traces ++ l ∧
      ∀ r, s1.deref s1.t = some r → r.TimeDNS = 0 ∧ r.TimeConnect = 0 := by
  refine ⟨rfl, by decide, ?_⟩
  obtain ⟨s1, l, h1, h2, h3, h4, h5⟩ :=
    C10_unfired_phase_zero fresh (.GotConn true) 0
      [(.WroteRequest, 1), (.GotFirstResponseByte, 20)] rfl
  exact ⟨s1, l, h1, h2, fun r hr =>
    ⟨h4 (by decide) _ r (h3 _ (Or.inl rfl)) hr, h5 (by decide) _ r (h3 _ (Or.inl rfl)) hr⟩⟩

/-! ## Relations between the durations -/

/-- C18, as stated, fails: the record of a reused connection acquired at the clock
reading T0 whose first response byte arrived at T0 + 20 and on which WroteRequest never
fired, queried at T0 + 30. TimeResponse and TimeWait are both the largest Duration and
TimeDownload is 10, so TimeResponse − TimeDownload is not TimeWait; and between the
query times T0 + 30 and T0 + 40 TimeResponse does not change. -/
theorem C18_counterexample :
    run fresh [(.GotConn true, T0), (.GotFirstResponseByte, T0 + 20)] =
      some { heap := [⟨"", T0, 0, 0, 0, 0, 0, T0 + 20⟩], t := some 0,
             traces := [some 0] } ∧
    trace.TimeResponse ⟨"", T0, 0, 0, 0, 0, 0, T0 + 20⟩ (T0 + 30) = 9223372036854775807 ∧
    trace.TimeDownload ⟨"", T0, 0, 0, 0, 0, 0, T0 + 20⟩ (T0 + 30) = 10 ∧
    trace.TimeWait ⟨"", T0, 0, 0, 0, 0, 0, T0 + 20⟩ = 9223372036854775807 ∧
    trace.TimeResponse ⟨"", T0, 0, 0, 0, 0, 0, T0 + 20⟩ (T0 + 30) -
        trace.TimeDownload ⟨"", T0, 0, 0, 0, 0, 0, T0 + 20⟩ (T0 + 30) ≠
      trace.TimeWait ⟨"", T0, 0, 0, 0, 0, 0, T0 + 20⟩ ∧
    trace.TimeResponse ⟨"", T0, 0, 0, 0, 0, 0, T0 + 20⟩ (T0 + 40) -
        trace.TimeResponse ⟨"", T0, 0, 0, 0, 0, 0, T0 + 20⟩ (T0 + 30) ≠
      (T0 + 40) - (T0 + 30) := by
  decide

/-- C18, amended: for every record and query times for which the subtractions involved
do not saturate (each difference can be represented as a Duration),
TimeResponse(now) − TimeDownload(now) = TimeWait(), so within one snapshot
TimeResponse = TimeWait + TimeDownload, and for two query times now1, now2 each of
TimeResponse, TimeDownload and TimeTotal differs by exactly now2 − now1; TimeDNS,
TimeConnect and TimeWait of two snapshots are equal for all query times. -/
theorem C18_duration_relations (r : trace) (now now1 now2 : Time) :
    (inRange r.waitEnd r.waitStart → inRange now r.waitStart → inRange now r.waitEnd →
      r.TimeResponse now - r.TimeDownload now = r.TimeWait ∧
      (r.Stats now).TimeResponse = (r.Stats now).TimeWait + (r.Stats now).TimeDownload) ∧
    (inRange now1 r.waitStart → inRange now2 r.waitStart →
      r.TimeResponse now2 - r.TimeResponse now1 = now2 - now1 ∧
      (r.Stats now2).TimeResponse - (r.Stats now1).TimeResponse = now2 - now1) ∧
    (inRange now1 r.waitEnd → inRange now2 r.waitEnd →
      r.TimeDownload now2 - r.TimeDownload now1 = now2 - now1 ∧
      (r.Stats now2).TimeDownload - (r.Stats now1).TimeDownload = now2 - now1) ∧
    (inRange now1 r.start → inRange now2 r.start →
      r.TimeTotal now2 - r.TimeTotal now1 = now2 - now1 ∧
      (r.Stats now2).TimeTotal - (r.Stats now1).TimeTotal = now2 - now1) ∧
    (r.Stats now2).TimeDNS = (r.Stats now1).TimeDNS ∧
    (r.Stats now2).TimeConnect = (r.Stats now1).TimeConnect ∧
    (r.Stats now2).TimeWait = (r.Stats now1).TimeWait := by
  refine ⟨?_, ?_, ?_, ?_, rfl, rfl, rfl⟩
  · intro hw hr hd
    simp only [trace.Stats, trace.TimeWait, trace.TimeResponse, trace.TimeDownload,
      Sub_inRange _ _ hw, Sub_inRange _ _ hr, Sub_inRange _ _ hd]
    constructor <;> ring
  · intro h1 h2
    simp only [trace.Stats, trace.TimeResponse, Sub_inRange _ _ h1, Sub_inRange _ _ h2]
    constructor <;> ring
  · intro h1 h2
    simp only [trace.Stats, trace.TimeDownload, Sub_inRange _ _ h1, Sub_inRange _ _ h2]
    constructor <;> ring
  · intro h1 h2
    simp only [trace.Stats, trace.TimeTotal, Sub_inRange _ _ h1, Sub_inRange _ _ h2]
    constructor <;> ring

/-- Witness of C18: a completed record at real clock readings, request written at
T0 + 16, first byte at T0 + 50, queried at T0 + 60 and T0 + 70. -/
theorem C18_duration_relations_witness :
    inRange (T0 + 50) (T0 + 16) ∧ inRange (T0 + 60) (T0 + 16) ∧
    inRange (T0 + 60) (T0 + 50) ∧ inRange (T0 + 70) (T0 + 16) ∧
    trace.TimeResponse ⟨"h:80", T0, T0 + 1, T0 + 5, T0 + 5, T0 + 15, T0 + 16, T0 + 50⟩
        (T0 + 60) -
      trace.TimeDownload ⟨"h:80", T0, T0 + 1, T0 + 5, T0 + 5, T0 + 15, T0 + 16, T0 + 50⟩
        (T0 + 60) =
      trace.TimeWait ⟨"h:80", T0, T0 + 1, T0 + 5, T0 + 5, T0 + 15, T0 + 16, T0 + 50⟩ ∧
    trace.TimeResponse ⟨"h:80", T0, T0 + 1, T0 + 5, T0 + 5, T0 + 15, T0 + 16, T0 + 50⟩
        (T0 + 70) -
      trace.TimeResponse ⟨"h:80", T0, T0 + 1, T0 + 5, T0 + 5, T0 + 15, T0 + 16, T0 + 50⟩
        (T0 + 60) = (T0 + 70) - (T0 + 60) :=
  have h1 : inRange (T0 + 50) (T0 + 16) := by unfold inRange; decide
  have h2 : inRange (T0 + 60) (T0 + 16) := by unfold inRange; decide
  have h3 : inRange (T0 + 60) (T0 + 50) := by unfold inRange; decide
  have h4 : inRange (T0 + 70) (T0 + 16) := by unfold inRange; decide
  have h := C18_duration_relations
    ⟨"h:80", T0, T0 + 1, T0 + 5, T0 + 5, T0 + 15, T0 + 16, T0 + 50⟩ (T0 + 60) (T0 + 60)
    (T0 + 70)
  ⟨h1, h2, h3, h4, (h.1 h1 h2 h3).1, (h.2.1 h2 h4).1⟩

/-! ## Scenarios -/

theorem run_lifecycle (a : String) (c0 c1 c2 c3 c4 c5 c6 c7 : Time) :
    run fresh (lifecycle a c0 c1 c2 c3 c4 c5 c6 c7) =
      some { heap := [⟨a, c0, c2, c3, c4, c5, c6, c7⟩], t := some 0,
             traces := [some 0] } := by
  rfl

theorem lifecycle_calls (a : String) (c0 c1 c2 c3 c4 c5 c6 c7 : Time) :
    ∃ s q, run fresh (lifecycle a c0 c1 c2 c3 c4 c5 c6 c7) = some s ∧
      s.traces.length = 1 ∧ s.traces = [q] ∧
      s.call q trace.Address = some (a, s) ∧
      s.call q trace.Start = some (c0, s) ∧
      s.call q trace.TimeDNS = some (Time.Sub c3 c2, s) ∧
      s.call q trace.TimeConnect = some (Time.Sub c5 c4, s) ∧
      s.call q trace.TimeWait = some (Time.Sub c7 c6, s) :=
  ⟨_, some 0, run_lifecycle a c0 c1 c2 c3 c4 c5 c6 c7, rfl, rfl, rfl, rfl, rfl, rfl, rfl⟩

theorem inRange_ms (t0 : Int) (m n : Int) (hm : 0 ≤ m) (hn : 0 ≤ n) (hm1 : m ≤ 1000)
    (hn1 : n ≤ 1000) : inRange (t0 + m * Millisecond) (t0 + n * Millisecond) := by
  unfold inRange minDuration maxDuration Millisecond
  constructor <;> omega

/-- C15: for every address `a` and clock readings c0..c7, the run on a fresh tracer of
GetConn(a) at c0, GotConn(false) at c1, DNSStart at c2, DNSDone at c3, ConnectStart at
c4, ConnectDone at c5, WroteRequest at c6, GotFirstResponseByte at c7 completes and
leaves a trace list of length 1 whose entry, although appended before the stamps were
made, answers Address = a, Start = c0, and TimeDNS, TimeConnect, TimeWait equal to
c3 − c2, c5 − c4, c7 − c6 saturated to the range of a Duration, hence exactly those
differences whenever they can be represented as a Duration (readings less than about
292 years apart); with "10.0.0.1:443" and the times t0, t0, t0+1ms, t0+5ms, t0+5ms,
t0+15ms, t0+16ms, t0+50ms that is 4ms, 10ms and 34ms, for every t0. -/
theorem C15_fresh_connection_scenario (a : String) (c0 c1 c2 c3 c4 c5 c6 c7 t0 : Time) :
    (∃ s q, run fresh (lifecycle a c0 c1 c2 c3 c4 c5 c6 c7) = some s ∧
      s.traces.length = 1 ∧ s.traces = [q] ∧
      s.call q trace.Address = some (a, s) ∧
      s.call q trace.Start = some (c0, s) ∧
      s.call q trace.TimeDNS = some (max minDuration (min maxDuration (c3 - c2)), s) ∧
      s.call q trace.TimeConnect = some (max minDuration (min maxDuration (c5 - c4)), s) ∧
      s.call q trace.TimeWait = some (max minDuration (min maxDuration (c7 - c6)), s) ∧
      (inRange c3 c2 → s.call q trace.TimeDNS = some (c3 - c2, s)) ∧
      (inRange c5 c4 → s.call q trace.TimeConnect = some (c5 - c4, s)) ∧
      (inRange c7 c6 → s.call q trace.TimeWait = some (c7 - c6, s))) ∧
    (∃ s q, run fresh (lifecycle "10.0.0.1:443" t0 t0 (t0 + 1 * Millisecond)
        (t0 + 5 * Millisecond) (t0 + 5 * Millisecond) (t0 + 15 * Millisecond)
        (t0 + 16 * Millisecond) (t0 + 50 * Millisecond)) = some s ∧
      s.traces.length = 1 ∧ s.traces = [q] ∧
      s.call q trace.TimeDNS = some (4 * Millisecond, s) ∧
      s.call q trace.TimeConnect = some (10 * Millisecond, s) ∧
      s.call q trace.TimeWait = some (34 * Millisecond, s)) := by
  constructor
  · obtain ⟨s, q, h1, h2, h3, h4, h5, h6, h7, h8⟩ :=
      lifecycle_calls a c0 c1 c2 c3 c4 c5 c6 c7
    refine ⟨s, q, h1, h2, h3, h4, h5, ?_, ?_, ?_, ?_, ?_, ?_⟩
    · rw [h6, Sub_clamp]
    · rw [h7, Sub_clamp]
    · rw [h8, Sub_clamp]
    · intro h
      rw [h6, Sub_inRange _ _ h]
    · intro h
      rw [h7, Sub_inRange _ _ h]
    · intro h
      rw [h8, Sub_inRange _ _ h]
  · obtain ⟨s, q, h1, h2, h3, _, _, h6, h7, h8⟩ :=
      lifecycle_calls "10.0.0.1:443" t0 t0 (t0 + 1 * Millisecond)
        (t0 + 5 * Millisecond) (t0 + 5 * Millisecond) (t0 + 15 * Millisecond)
        (t0 + 16 * Millisecond) (t0 + 50 * Millisecond)
    refine ⟨s, q, h1, h2, h3, ?_, ?_, ?_⟩
    · rw [h6, Sub_inRange _ _ (inRange_ms t0 5 1 (by decide) (by decide) (by decide)
        (by decide))]
      congr 2
      ring
    · rw [h7, Sub_inRange _ _ (inRange_ms t0 15 5 (by decide) (by decide) (by decide)
        (by decide))]
      congr 2
      ring
    · rw [h8, Sub_inRange _ _ (inRange_ms t0 50 16 (by decide) (by decide) (by decide)
        (by decide))]
      congr 2
      ring

/-- Witness of C15: the scenario at the real clock reading T0, readings in
nanoseconds. -/
theorem C15_fresh_connection_scenario_witness :
    inRange (T0 + 5000000) (T0 + 1000000) ∧
    ∃ s q, run fresh (lifecycle "10.0.0.1:443" T0 T0 (T0 + 1000000) (T0 + 5000000)
        (T0 + 5000000) (T0 + 15000000) (T0 + 16000000) (T0 + 50000000)) = some s ∧
      s.traces = [q] ∧
      s.call q trace.TimeDNS = some ((T0 + 5000000) - (T0 + 1000000), s) ∧
      (T0 + 5000000) - (T0 + 1000000) = 4 * Millisecond := by
  have hr : inRange (T0 + 5000000) (T0 + 1000000) := by unfold inRange; decide
  obtain ⟨s, q, h1, _, h3, _, _, _, _, _, h9, _⟩ :=
    (C15_fresh_connection_scenario "10.0.0.1:443" T0 T0 (T0 + 1000000) (T0 + 5000000)
      (T0 + 5000000) (T0 + 15000000) (T0 + 16000000) (T0 + 50000000) T0).1
  exact ⟨hr, s, q, h1, h3, h9 hr, by decide⟩

theorem reused_calls (c0 c1 c2 : Time) :
    ∃ s q, run fresh [(.GotConn true, c0), (.WroteRequest, c1),
        (.GotFirstResponseByte, c2)] = some s ∧
      s.traces.length = 1 ∧ s.traces = [q] ∧
      s.call q trace.Start = some (c0, s) ∧
      s.call q trace.TimeDNS = some (Time.Sub 0 0, s) ∧
      s.call q trace.TimeConnect = some (Time.Sub 0 0, s) ∧
      s.call q trace.TimeWait = some (Time.Sub c2 c1, s) :=
  ⟨{ heap := [⟨"", c0, 0, 0, 0, 0, c1, c2⟩], t := some 0, traces := [some 0] }, some 0,
    rfl, rfl, rfl, rfl, rfl, rfl, rfl⟩

/-- C16: for every clock readings c0, c1, c2, the run on a fresh tracer (no current
record yet) of only GotConn(true) at c0, WroteRequest at c1, GotFirstResponseByte at c2
completes and leaves a trace list of length 1 whose entry answers Start = c0,
TimeDNS = 0, TimeConnect = 0 and TimeWait equal to c2 − c1 saturated to the range of a
Duration, hence exactly c2 − c1 whenever that can be represented as a Duration
(readings less than about 292 years apart); with the times t0, t0+1ms, t0+20ms that is
0, 0 and 19ms, for every t0. -/
theorem C16_reused_connection_scenario (c0 c1 c2 t0 : Time) :
    (∃ s q, run fresh [(.GotConn true, c0), (.WroteRequest, c1),
        (.GotFirstResponseByte, c2)] = some s ∧
      s.traces.length = 1 ∧ s.traces = [q] ∧
      s.call q trace.Start = some (c0, s) ∧
      s.call q trace.TimeDNS = some (0, s) ∧
      s.call q trace.TimeConnect = some (0, s) ∧
      s.call q trace.TimeWait = some (max minDuration (min maxDuration (c2 - c1)), s) ∧
      (inRange c2 c1 → s.call q trace.TimeWait = some (c2 - c1, s))) ∧
    (∃ s q, run fresh [(.GotConn true, t0), (.WroteRequest, t0 + 1 * Millisecond),
        (.GotFirstResponseByte, t0 + 20 * Millisecond)] = some s ∧
      s.traces.length = 1 ∧ s.traces = [q] ∧
      s.call q trace.TimeDNS = some (0, s) ∧
      s.call q trace.TimeConnect = some (0, s) ∧
      s.call q trace.TimeWait = some (19 * Millisecond, s)) := by
  constructor
  · obtain ⟨s, q, h1, h2, h3, h4, h5, h6, h7⟩ := reused_calls c0 c1 c2
    rw [Sub_zero_zero] at h5 h6
    refine ⟨s, q, h1, h2, h3, h4, h5, h6, ?_, ?_⟩
    · rw [h7, Sub_clamp]
    · intro h
      rw [h7, Sub_inRange _ _ h]
  · obtain ⟨s, q, h1, h2, h3, _, h5, h6, h7⟩ :=
      reused_calls t0 (t0 + 1 * Millisecond) (t0 + 20 * Millisecond)
    rw [Sub_zero_zero] at h5 h6
    refine ⟨s, q, h1, h2, h3, h5, h6, ?_⟩
    rw [h7, Sub_inRange _ _ (inRange_ms t0 20 1 (by decide) (by decide) (by decide)
      (by decide))]
    congr 2
    ring

/-- Witness of C16: the scenario at the real clock reading T0, readings in
nanoseconds. -/
theorem C16_reused_connection_scenario_witness :
    inRange (T0 + 20000000) (T0 + 1000000) ∧
    ∃ s q, run fresh [(.GotConn true, T0), (.WroteRequest, T0 + 1000000),
        (.GotFirstResponseByte, T0 + 20000000)] = some s ∧
      s.traces = [q] ∧
      s.call q trace.TimeWait = some ((T0 + 20000000) - (T0 + 1000000), s) ∧
      (T0 + 20000000) - (T0 + 1000000) = 19 * Millisecond := by
  have hr : inRange (T0 + 20000000) (T0 + 1000000) := by unfold inRange; decide
  obtain ⟨s, q, h1, _, h3, _, _, _, _, h8⟩ :=
    (C16_reused_connection_scenario T0 (T0 + 1000000) (T0 + 20000000) T0).1
  exact ⟨hr, s, q, h1, h3, h8 hr, by decide⟩

/-! ## Phases that were not observed -/

theorem created_wait (e : Event) (c : Time) :
    (e.created c).waitStart = 0 ∧ (e.created c).waitEnd = 0 := by
  cases e <;> exact ⟨rfl, rfl⟩

theorem stamp_wait (e : Event) (c : Time) (r : trace) (he : e.isWait = false)
    (h : r.waitStart = 0 ∧ r.waitEnd = 0) :
    (e.stamp c r).waitStart = 0 ∧ (e.stamp c r).waitEnd = 0 := by
  cases e <;> first | exact h | cases he

theorem creates_wait (e : Event) (h : e.creates = true) : e.isWait = false := by
  cases e <;> first | rfl | cases h

theorem seq_total (s : Tracer) (e : Event) (c : Time) (rest : List (Event × Time))
    (hfirst : e.creates = true) :
    ∃ s1 l, run s ((e, c) :: rest) = some s1 ∧ s1.traces = s.traces ++ l ∧
      s1.pointsFrom s.heap.length s1.t ∧ ∀ q ∈ l, s1.pointsFrom s.heap.length q := by
  obtain ⟨s2, h2, hs2, hl2⟩ :=
    step_from s.heap.length s e c (Or.inr ⟨hfirst, Nat.le_refl _⟩)
  obtain ⟨s1, l, h1, hs1, hl1, ht1, hq1⟩ := run_from s.heap.length rest s2 hs2
  refine ⟨s1, (if e.isGotConn then [s2.t] else []) ++ l, by simp [run, h2, h1], ?_,
    hs1, ?_⟩
  · rw [ht1, step_traces s s2 e c h2, List.append_assoc]
  · intro q hq
    rw [List.mem_append] at hq
    rcases hq with hq | hq
    · by_cases hg : e.isGotConn = true
      · simp only [hg, if_true, List.mem_singleton] at hq
        obtain ⟨j, hj, hnj, hjl⟩ := hs2
        exact ⟨j, hq.trans hj, hnj, by omega⟩
      · simp [hg] at hq
    · exact hq1 q hq

theorem seq_heapFrom (P : trace → Prop) (s s1 : Tracer) (e : Event) (c : Time)
    (rest : List (Event × Time)) (hrun : run s ((e, c) :: rest) = some s1)
    (hc : ∀ (x : Event) (d : Time), P (x.created d))
    (hs0 : ∀ r, P r → P (e.stamp c r))
    (hs : ∀ x ∈ rest, ∀ r, P r → P (x.1.stamp x.2 r)) :
    heapFrom P s.heap.length s1.heap := by
  refine run_heapFrom P s.heap.length ((e, c) :: rest) s s1 hrun (heapFrom_length _ _)
    (fun x _ _ => hc x.1 x.2) ?_
  intro x hx r hr
  rcases List.mem_cons.mp hx with hx | hx
  · rw [hx]
    exact hs0 r hr
  · exact hs x hx r hr

/-- C11, as stated, fails: a dialled connection on which WroteRequest fired at time 3
and GotFirstResponseByte never did. The wait phase has its start stamped and its end
not, and TimeWait is 0 − 3 = −3, negative and not zero; with the real clock readings
T0 + 1, T0 + 2, T0 + 3 it is the smallest Duration. -/
theorem C11_counterexample :
    run fresh [(.GetConn "h:80", 1), (.GotConn false, 2), (.WroteRequest, 3)] =
      some { heap := [⟨"h:80", 1, 0, 0, 0, 0, 3, 0⟩], t := some 0, traces := [some 0] } ∧
    Tracer.call
        { heap := [⟨"h:80", 1, 0, 0, 0, 0, 3, 0⟩], t := some 0, traces := [some 0] }
        (some 0) trace.TimeWait =
      some (-3,
        { heap := [⟨"h:80", 1, 0, 0, 0, 0, 3, 0⟩], t := some 0, traces := [some 0] }) ∧
    trace.TimeWait ⟨"h:80", 1, 0, 0, 0, 0, 3, 0⟩ < 0 ∧
    run fresh [(.GetConn "h:80", T0 + 1), (.GotConn false, T0 + 2),
        (.WroteRequest, T0 + 3)] =
      some { heap := [⟨"h:80", T0 + 1, 0, 0, 0, 0, T0 + 3, 0⟩], t := some 0,
             traces := [some 0] } ∧
    trace.TimeWait ⟨"h:80", T0 + 1, 0, 0, 0, 0, T0 + 3, 0⟩ = -9223372036854775808 := by
  decide

/-- C11, amended: from every state, a sequence that begins with a creating event runs
to completion, and for each phase (DNS, connect, wait) of which neither the start
event nor the end event fires after that first event, every record the sequence
allocated has that duration (TimeDNS, TimeConnect, TimeWait) equal to zero. -/
theorem C11_unobserved_phase_zero (s : Tracer) (e : Event) (c : Time)
    (rest : List (Event × Time)) (hfirst : e.creates = true) :
    ∃ s1, run s ((e, c) :: rest) = some s1 ∧
      s1.pointsFrom s.heap.length s1.t ∧
      ∀ q r, s1.pointsFrom s.heap.length q → s1.deref q = some r →
        ((∀ x ∈ rest, x.1.isDNS = false) → r.TimeDNS = 0) ∧
        ((∀ x ∈ rest, x.1.isConnect = false) → r.TimeConnect = 0) ∧
        ((∀ x ∈ rest, x.1.isWait = false) → r.TimeWait = 0) := by
  obtain ⟨s1, l, hrun, _, hcur, _⟩ := seq_total s e c rest hfirst
  refine ⟨s1, hrun, hcur, ?_⟩
  intro q r hq hr
  obtain ⟨j, rfl, hj, _⟩ := hq
  refine ⟨fun hno => ?_, fun hno => ?_, fun hno => ?_⟩
  · obtain ⟨z1, z2⟩ := seq_heapFrom (fun r => r.dnsStart = 0 ∧ r.dnsEnd = 0) s s1 e c
      rest hrun (fun x d => (created_phase x d).1)
      (fun r hr => stamp_dns e c r (creates_phase e hfirst).1 hr)
      (fun x hx r hr => stamp_dns x.1 x.2 r (hno x hx) hr) j r hj hr
    rw [trace.TimeDNS, z1, z2]
    exact Sub_zero_zero
  · obtain ⟨z1, z2⟩ := seq_heapFrom (fun r => r.tcpStart = 0 ∧ r.tcpEnd = 0) s s1 e c
      rest hrun (fun x d => (created_phase x d).2)
      (fun r hr => stamp_connect e c r (creates_phase e hfirst).2 hr)
      (fun x hx r hr => stamp_connect x.1 x.2 r (hno x hx) hr) j r hj hr
    rw [trace.TimeConnect, z1, z2]
    exact Sub_zero_zero
  · obtain ⟨z1, z2⟩ := seq_heapFrom (fun r => r.waitStart = 0 ∧ r.waitEnd = 0) s s1 e c
      rest hrun (fun x d => created_wait x d)
      (fun r hr => stamp_wait e c r (creates_wait e hfirst) hr)
      (fun x hx r hr => stamp_wait x.1 x.2 r (hno x hx) hr) j r hj hr
    rw [trace.TimeWait, z1, z2]
    exact Sub_zero_zero

/-- Witness of C11: a dialled connection that resolved a name and connected, but on
which no request was written: the wait phase was not observed. -/
theorem C11_unobserved_phase_zero_witness :
    Event.creates (.GetConn "h:80") = true ∧
    ∃ s1 r, run fresh [(.GetConn "h:80", 1), (.DNSStart, 2), (.DNSDone, 3),
        (.ConnectStart, 4), (.ConnectDone, 5), (.GotConn false, 6)] = some s1 ∧
      s1.deref s1.t = some r ∧ r.TimeWait = 0 := by
  refine ⟨rfl, ?_⟩
  obtain ⟨s1, h1, h2, h3⟩ :=
    C11_unobserved_phase_zero fresh (.GetConn "h:80") 1
      [(.DNSStart, 2), (.DNSDone, 3), (.ConnectStart, 4), (.ConnectDone, 5),
        (.GotConn false, 6)] rfl
  cases hr : s1.deref s1.t with
  | none => exact absurd hr (pointsFrom_deref s1 _ _ h2)
  | some r => exact ⟨s1, r, h1, hr, (h3 _ r h2 hr).2.2 (by decide)⟩

/-- C12, as stated, fails: the record of a reused connection acquired at the clock
reading T0 + 5, with no phase timestamp stamped, queried at T0 + 7. TimeResponse and
TimeDownload are the largest Duration, not zero. -/
theorem C12_counterexample :
    run fresh [(.GotConn true, T0 + 5)] =
      some { heap := [⟨"", T0 + 5, 0, 0, 0, 0, 0, 0⟩], t := some 0,
             traces := [some 0] } ∧
    trace.TimeResponse ⟨"", T0 + 5, 0, 0, 0, 0, 0, 0⟩ (T0 + 7) = 9223372036854775807 ∧
    trace.TimeDownload ⟨"", T0 + 5, 0, 0, 0, 0, 0, 0⟩ (T0 + 7) = 9223372036854775807 ∧
    trace.TimeResponse ⟨"", T0 + 5, 0, 0, 0, 0, 0, 0⟩ (T0 + 7) ≠ 0 ∧
    trace.TimeDownload ⟨"", T0 + 5, 0, 0, 0, 0, 0, 0⟩ (T0 + 7) ≠ 0 := by
  decide

/-- C12, amended: the record a creating event (GetConn, or GotConn with reused = true)
leaves as current has no phase timestamp stamped, and for every record with the six
phase timestamps at zero TimeDNS() = 0, TimeConnect() = 0 and TimeWait() = 0, while
for every query time `now` TimeResponse(now) and TimeDownload(now) both equal `now`
minus the zero timestamp saturated to the range of a Duration: the largest Duration
for every `now` at least that far after the zero time (every real clock reading), and
zero only for now = 0. -/
theorem C12_unstamped_durations :
    (∀ (s : Tracer) (e : Event) (c : Time), e.creates = true →
      ∃ s1 r, step s e c = some s1 ∧ s1.deref s1.t = some r ∧ r.start = c ∧
        r.dnsStart = 0 ∧ r.dnsEnd = 0 ∧ r.tcpStart = 0 ∧ r.tcpEnd = 0 ∧
        r.waitStart = 0 ∧ r.waitEnd = 0) ∧
    (∀ (r : trace) (now : Time), r.dnsStart = 0 → r.dnsEnd = 0 → r.tcpStart = 0 →
      r.tcpEnd = 0 → r.waitStart = 0 → r.waitEnd = 0 →
      r.TimeDNS = 0 ∧ r.TimeConnect = 0 ∧ r.TimeWait = 0 ∧
        r.TimeResponse now = max minDuration (min maxDuration now) ∧
        r.TimeDownload now = max minDuration (min maxDuration now) ∧
        (maxDuration ≤ now →
          r.TimeResponse now = maxDuration ∧ r.TimeDownload now = maxDuration) ∧
        (r.TimeResponse now = 0 ↔ now = 0) ∧ (r.TimeDownload now = 0 ↔ now = 0)) := by
  refine ⟨?_, ?_⟩
  · intro s e c he
    cases e with
    | GetConn a =>
      refine ⟨_, { trace.zero with start := c, addr := a }, GetConn_eq s a c, ?_,
        rfl, rfl, rfl, rfl, rfl, rfl, rfl⟩
      simp [Tracer.deref]
    | GotConn reused =>
      cases reused with
      | false => cases he
      | true =>
        refine ⟨_, { trace.zero with start := c }, GotConn_true_eq s c, ?_,
          rfl, rfl, rfl, rfl, rfl, rfl, rfl⟩
        simp [Tracer.deref]
    | DNSStart => cases he
    | DNSDone => cases he
    | ConnectStart => cases he
    | ConnectDone => cases he
    | WroteRequest => cases he
    | GotFirstResponseByte => cases he
  · intro r now h1 h2 h3 h4 h5 h6
    obtain ⟨z1, z2, z3⟩ := Sub_zero_right now
    simp only [trace.TimeDNS, trace.TimeConnect, trace.TimeWait, trace.TimeResponse,
      trace.TimeDownload, h1, h2, h3, h4, h5, h6]
    exact ⟨Sub_zero_zero, Sub_zero_zero, Sub_zero_zero, z1, z1,
      fun h => ⟨z2 h, z2 h⟩, z3, z3⟩

/-- Witness of C12: a reused connection acquired at the clock reading T0 + 5, queried
at T0 + 7. -/
theorem C12_unstamped_durations_witness :
    Event.creates (.GotConn true) = true ∧
    (∃ s1 r, step fresh (.GotConn true) (T0 + 5) = some s1 ∧ s1.deref s1.t = some r ∧
      r.start = T0 + 5) ∧
    maxDuration ≤ T0 + 7 ∧
    trace.TimeWait ⟨"", T0 + 5, 0, 0, 0, 0, 0, 0⟩ = 0 ∧
    trace.TimeResponse ⟨"", T0 + 5, 0, 0, 0, 0, 0, 0⟩ (T0 + 7) = maxDuration := by
  have h := C12_unstamped_durations.2 ⟨"", T0 + 5, 0, 0, 0, 0, 0, 0⟩ (T0 + 7)
    rfl rfl rfl rfl rfl rfl
  obtain ⟨s1, r, h1, h2, h3, _⟩ :=
    C12_unstamped_durations.1 fresh (.GotConn true) (T0 + 5) rfl
  have hmax : maxDuration ≤ T0 + 7 := by decide
  exact ⟨rfl, ⟨s1, r, h1, h2, h3⟩, hmax, h.2.2.1, (h.2.2.2.2.2.1 hmax).1⟩

/-! ## Failure of the handlers -/

theorem run_take (evs : List (Event × Time)) :
    ∀ (s s1 : Tracer), run s evs = some s1 → ∀ k, ∃ sk, run s (evs.take k) = some sk := by
  induction evs with
  | nil =>
    intro s s1 _ k
    exact ⟨s, by simp [run]⟩
  | cons x rest ih =>
    intro s s1 h k
    obtain ⟨e, c⟩ := x
    obtain ⟨s2, h2, h3⟩ := run_cons s s1 e c rest h
    cases k with
    | zero => exact ⟨s, by simp [run]⟩
    | succ k =>
      obtain ⟨sk, hk⟩ := ih s2 s1 h3 k
      exact ⟨sk, by simp [run, h2, hk]⟩

/-- C13, as stated, fails: on a freshly attached tracer a stamping handler that fires
first (DNSStart, WroteRequest) dereferences the nil pointer and does not complete; and
GotConn(false) with no preceding GetConn completes but appends a nil entry, on which
every query (here Address and TimeWait) fails. -/
theorem C13_counterexample :
    run fresh [(.DNSStart, 1)] = none ∧
    run fresh [(.WroteRequest, 1)] = none ∧
    run fresh [(.GotConn false, 1)] = some { heap := [], t := none, traces := [none] } ∧
    Tracer.call { heap := [], t := none, traces := [none] } none trace.Address = none ∧
    Tracer.call { heap := [], t := none, traces := [none] } none trace.TimeWait = none := by
  decide

/-- C13, amended: for every finite sequence of lifecycle events delivered to a freshly
attached tracer that begins with a creating event (GetConn, or GotConn with reused =
true) and continues in any order, every handler completes normally (the run and each
of its initial segments reach a state), and every entry of the trace list points to a
record, so that every query on it (Address, Start, the Time* methods, Stats) returns
its value and leaves the state unchanged. -/
theorem C13_handlers_complete (e : Event) (c : Time) (rest : List (Event × Time))
    (hfirst : e.creates = true) :
    ∃ s1, run fresh ((e, c) :: rest) = some s1 ∧
      (∀ k, ∃ sk, run fresh (((e, c) :: rest).take k) = some sk) ∧
      ∀ q ∈ s1.traces, ∃ r, s1.deref q = some r ∧
        s1.call q trace.Address = some (r.addr, s1) ∧
        s1.call q trace.Start = some (r.start, s1) ∧
        s1.call q trace.TimeDNS = some (r.TimeDNS, s1) ∧
        s1.call q trace.TimeConnect = some (r.TimeConnect, s1) ∧
        s1.call q trace.TimeWait = some (r.TimeWait, s1) ∧
        ∀ now, s1.call q (fun t => t.TimeResponse now) = some (r.TimeResponse now, s1) ∧
          s1.call q (fun t => t.TimeDownload now) = some (r.TimeDownload now, s1) ∧
          s1.call q (fun t => t.TimeTotal now) = some (r.TimeTotal now, s1) ∧
          s1.call q (fun t => t.Stats now) = some (r.Stats now, s1) := by
  obtain ⟨s1, l, hrun, htr, _, hl⟩ := seq_total fresh e c rest hfirst
  refine ⟨s1, hrun, run_take _ fresh s1 hrun, ?_⟩
  intro q hq
  have hq1 : q ∈ l := by
    rw [htr] at hq
    simpa [fresh, WithTraces] using hq
  cases hr : s1.deref q with
  | none => exact absurd hr (pointsFrom_deref s1 _ q (hl q hq1))
  | some r =>
    exact ⟨r, rfl, call_deref s1 q r _ hr, call_deref s1 q r _ hr,
      call_deref s1 q r _ hr, call_deref s1 q r _ hr, call_deref s1 q r _ hr,
      fun now => ⟨call_deref s1 q r _ hr, call_deref s1 q r _ hr,
        call_deref s1 q r _ hr, call_deref s1 q r _ hr⟩⟩

/-- Witness of C13: a reused connection whose events arrive out of order. -/
theorem C13_handlers_complete_witness :
    Event.creates (.GotConn true) = true ∧
    ∃ s1, run fresh [(.GotConn true, 1), (.GotFirstResponseByte, 2), (.DNSDone, 3),
        (.GotConn false, 4)] = some s1 ∧
      ∀ q ∈ s1.traces, ∃ r, s1.deref q = some r := by
  refine ⟨rfl, ?_⟩
  obtain ⟨s1, h1, _, h3⟩ :=
    C13_handlers_complete (.GotConn true) 1
      [(.GotFirstResponseByte, 2), (.DNSDone, 3), (.GotConn false, 4)] rfl
  refine ⟨s1, h1, fun q hq => ?_⟩
  obtain ⟨r, hr, _⟩ := h3 q hq
  exact ⟨r, hr⟩

/-! ## Isolation of earlier records -/

theorem step_below (n : Nat) (s s1 : Tracer) (e : Event) (c : Time)
    (h : step s e c = some s1)
    (hc : s.pointsFrom n s.t ∨ (e.creates = true ∧ n ≤ s.heap.length)) :
    ∀ j, j < n → s1.heap[j]? = s.heap[j]? := by
  intro j hj
  have hn : n ≤ s.heap.length := by
    rcases hc with ⟨i, _, h2, h3⟩ | hc
    · omega
    · exact hc.2
  rcases step_heap s s1 e c h with ⟨_, h2, _⟩ | ⟨he, _, h2 | ⟨i, r, hi, _, h2⟩⟩
  · rw [h2, List.getElem?_append_left (by omega)]
  · rw [h2]
  · rw [h2]
    have hcur : s.pointsFrom n s.t := by
      rcases hc with hc | hc
      · exact hc
      · rw [he] at hc
        cases hc.1
    obtain ⟨i1, hi1, hni, _⟩ := hcur
    have e1 : i = i1 := Option.some.inj (hi.symm.trans hi1)
    exact List.getElem?_set_ne (by omega)

theorem run_below (n : Nat) (evs : List (Event × Time)) :
    ∀ (s s1 : Tracer), run s evs = some s1 → s.pointsFrom n s.t →
      ∀ j, j < n → s1.heap[j]? = s.heap[j]? := by
  induction evs with
  | nil =>
    intro s s1 h _ j _
    simp only [run, Option.some.injEq] at h
    rw [h]
  | cons x rest ih =>
    intro s s1 h hs j hj
    obtain ⟨e, c⟩ := x
    obtain ⟨s2, h2, h3⟩ := run_cons s s1 e c rest h
    obtain ⟨s2a, h2a, hs2, _⟩ := step_from n s e c (Or.inl hs)
    have e2 : s2a = s2 := Option.some.inj (h2a.symm.trans h2)
    subst e2
    rw [ih s2a s1 h3 hs2 j hj, step_below n s s2a e c h2 (Or.inl hs) j hj]

theorem isolation (s : Tracer) (k : Nat) (q : Option Nat) (R : trace) (e : Event)
    (c : Time) (rest : List (Event × Time)) (hk : s.traces[k]? = some q)
    (hq : s.deref q = some R) (hfirst : e.creates = true) :
    ∃ s1, run s ((e, c) :: rest) = some s1 ∧ s1.traces[k]? = some q ∧
      s1.deref q = some R ∧ s1.t ≠ q := by
  obtain ⟨s2, h2, hs2, _⟩ :=
    step_from s.heap.length s e c (Or.inr ⟨hfirst, Nat.le_refl _⟩)
  obtain ⟨s1, l, h1, hs1, _, ht1, _⟩ := run_from s.heap.length rest s2 hs2
  have hklt : k < s.traces.length := by
    by_contra hge
    rw [List.getElem?_eq_none (by omega)] at hk
    cases hk
  cases q with
  | none => simp [Tracer.deref] at hq
  | some j =>
    have hj : j < s.heap.length := deref_lt s j (by rw [hq]; simp)
    refine ⟨s1, by simp [run, h2, h1], ?_, ?_, ?_⟩
    · rw [ht1, step_traces s s2 e c h2, List.append_assoc,
        List.getElem?_append_left hklt]
      exact hk
    · simp only [Tracer.deref] at hq ⊢
      rw [run_below s.heap.length rest s2 s1 h1 hs2 j hj,
        step_below s.heap.length s s2 e c h2 (Or.inr ⟨hfirst, Nat.le_refl _⟩) j hj]
      exact hq
    · obtain ⟨i, hi, hni, _⟩ := hs1
      rw [hi]
      intro e1
      have : i = j := Option.some.inj e1
      omega

theorem isStamp_not (e : Event) (h : e.isStamp = true) :
    e.creates = false ∧ e.isGotConn = false := by
  cases e <;> first | exact ⟨rfl, rfl⟩ | cases h

theorem run_stamps (n : Nat) (evs : List (Event × Time)) :
    ∀ (s : Tracer), (∀ x ∈ evs, x.1.isStamp = true) → s.pointsFrom n s.t →
      ∃ s1, run s evs = some s1 ∧ s1.t = s.t ∧ s1.traces = s.traces ∧
        s1.heap.length = s.heap.length := by
  induction evs with
  | nil =>
    intro s _ _
    exact ⟨s, rfl, rfl, rfl, rfl⟩
  | cons x rest ih =>
    intro s hst hs
    obtain ⟨e, c⟩ := x
    obtain ⟨he1, he2⟩ := isStamp_not e (hst (e, c) (List.mem_cons_self _ _))
    obtain ⟨s2, h2, hs2, _⟩ := step_from n s e c (Or.inl hs)
    obtain ⟨s1, h1, h1t, h1tr, h1l⟩ :=
      ih s2 (fun y hy => hst y (List.mem_cons_of_mem _ hy)) hs2
    have htr : s2.traces = s.traces := by
      simpa [he2] using step_traces s s2 e c h2
    have hh : s2.t = s.t ∧ s2.heap.length = s.heap.length := by
      rcases step_heap s s2 e c h2 with ⟨hc, _, _⟩ | ⟨_, ht, hh | ⟨i, r, _, _, hh⟩⟩
      · rw [he1] at hc
        cases hc
      · exact ⟨ht, by rw [hh]⟩
      · exact ⟨ht, by rw [hh]; simp⟩
    exact ⟨s1, by simp [run, h2, h1], h1t.trans hh.1, h1tr.trans htr,
      h1l.trans hh.2⟩

theorem run_append (l1 l2 : List (Event × Time)) :
    ∀ (s s2 : Tracer), run s l1 = some s2 → run s (l1 ++ l2) = run s2 l2 := by
  induction l1 with
  | nil =>
    intro s s2 h
    simp only [run, Option.some.injEq] at h
    rw [h]
    rfl
  | cons x rest ih =>
    intro s s2 h
    obtain ⟨e, c⟩ := x
    obtain ⟨s3, h3, h4⟩ := run_cons s s2 e c rest h
    simp only [List.cons_append, run, h3, Option.some_bind]
    exact ih s3 s2 h4

theorem stamp_addr (e : Event) (c : Time) (r : trace) : (e.stamp c r).addr = r.addr := by
  cases e <;> rfl

theorem two_connections (a1 a2 : String) (c1 c2 c3 c4 : Time)
    (mid post : List (Event × Time)) (hmid : ∀ x ∈ mid, x.1.isStamp = true)
    (hpost : ∀ x ∈ post, x.1.isStamp = true) :
    ∃ s3 s1 R R2 q1 q2,
      run fresh ((.GetConn a1, c1) :: (.GotConn false, c2) :: mid) = some s3 ∧
      s3.traces = [q1] ∧ s3.deref q1 = some R ∧
      run fresh ((.GetConn a1, c1) :: (.GotConn false, c2) ::
        (mid ++ (.GetConn a2, c3) :: (.GotConn false, c4) :: post)) = some s1 ∧
      s1.traces = [q1, q2] ∧ q1 ≠ q2 ∧ s1.deref q1 = some R ∧
      s1.deref q2 = some R2 ∧ R2.addr = a2 ∧ R2.start = c3 := by
  have hA : run fresh [(.GetConn a1, c1), (.GotConn false, c2)] =
      some { heap := [⟨a1, c1, 0, 0, 0, 0, 0, 0⟩], t := some 0, traces := [some 0] } :=
    rfl
  obtain ⟨s3, h3, h3t, h3tr, h3l⟩ := run_stamps 0 mid
    { heap := [⟨a1, c1, 0, 0, 0, 0, 0, 0⟩], t := some 0, traces := [some 0] } hmid
    ⟨0, rfl, Nat.le_refl _, by simp⟩
  have h3l1 : s3.heap.length = 1 := by simpa using h3l
  have hrun3 : run fresh ((.GetConn a1, c1) :: (.GotConn false, c2) :: mid) = some s3 := by
    rw [← h3]
    exact run_append [(.GetConn a1, c1), (.GotConn false, c2)] mid fresh _ hA
  cases hR : s3.deref (some 0) with
  | none => exact absurd hR (valid_deref s3 0 (by omega))
  | some R =>
    have hstep : run s3 ((.GetConn a2, c3) :: (.GotConn false, c4) :: post) =
        run { heap := s3.heap ++ [{ trace.zero with start := c3, addr := a2 }],
              t := some s3.heap.length,
              traces := s3.traces ++ [some s3.heap.length] } post := by
      simp [run, step, GetConn_eq, GotConn_false_eq]
    obtain ⟨s1, h1, h1t, h1tr, h1l⟩ := run_stamps 1 post
      { heap := s3.heap ++ [{ trace.zero with start := c3, addr := a2 }],
        t := some s3.heap.length, traces := s3.traces ++ [some s3.heap.length] } hpost
      ⟨s3.heap.length, rfl, by omega, by simp⟩
    have h1l2 : s1.heap.length = 2 := by
      rw [h1l]; simp [h3l1]
    have hinv := run_heapFrom (fun r => r.addr = a2 ∧ r.start = c3) 1 post _ s1 h1
      (heapFrom_append _ 1 s3.heap _ (h3l1 ▸ heapFrom_length _ s3.heap) ⟨rfl, rfl⟩)
      (fun x hx hc => by
        rw [(isStamp_not x.1 (hpost x hx)).1] at hc
        cases hc)
      (fun x _ r hr =>
        ⟨(stamp_addr x.1 x.2 r).trans hr.1, (stamp_start x.1 x.2 r).trans hr.2⟩)
    have hb := run_below 1 post _ s1 h1 ⟨s3.heap.length, rfl, by omega, by simp⟩ 0
      (by omega)
    cases hR2 : s1.deref (some 1) with
    | none => exact absurd hR2 (valid_deref s1 1 (by omega))
    | some R2 =>
      refine ⟨s3, s1, R, R2, some 0, some 1, hrun3, by rw [h3tr], hR, ?_, ?_, by simp,
        ?_, hR2, hinv 1 R2 (Nat.le_refl _) hR2⟩
      · rw [← h1, ← hstep]
        exact run_append ((.GetConn a1, c1) :: (.GotConn false, c2) :: mid) _ fresh s3
          hrun3
      · rw [h1tr, h3tr, h3l1]
        rfl
      · simp only [Tracer.deref] at hR ⊢
        rw [hb, List.getElem?_append_left (by omega)]
        exact hR

/-- C14: if an entry of the trace list (at position `k`) points to a record R and a new
connection then begins (GetConn, or GotConn with reused = true), the run of every
sequence of later events completes and leaves the entry at its position and all fields
of R unchanged, and R is no longer the current record; and when a first
GetConn/GotConn(false) pair with its stamping events is followed by a second pair with
its stamping events, the list has exactly two entries, they are different pointers,
the first still reads the record it read before the second connection began, and the
second reads the record of the second connection. -/
theorem C14_earlier_records_isolated :
    (∀ (s : Tracer) (k : Nat) (q : Option Nat) (R : trace) (e : Event) (c : Time)
        (rest : List (Event × Time)), s.traces[k]? = some q → s.deref q = some R →
        e.creates = true →
        ∃ s1, run s ((e, c) :: rest) = some s1 ∧ s1.traces[k]? = some q ∧
          s1.deref q = some R ∧ s1.t ≠ q) ∧
    (∀ (a1 a2 : String) (c1 c2 c3 c4 : Time) (mid post : List (Event × Time)),
        (∀ x ∈ mid, x.1.isStamp = true) → (∀ x ∈ post, x.1.isStamp = true) →
        ∃ s3 s1 R R2 q1 q2,
          run fresh ((.GetConn a1, c1) :: (.GotConn false, c2) :: mid) = some s3 ∧
          s3.traces = [q1] ∧ s3.deref q1 = some R ∧
          run fresh ((.GetConn a1, c1) :: (.GotConn false, c2) ::
            (mid ++ (.GetConn a2, c3) :: (.GotConn false, c4) :: post)) = some s1 ∧
          s1.traces.length = 2 ∧ s1.traces = [q1, q2] ∧ q1 ≠ q2 ∧
          s1.deref q1 = some R ∧ s1.deref q2 = some R2 ∧ R2.addr = a2 ∧
          R2.start = c3) := by
  refine ⟨isolation, ?_⟩
  intro a1 a2 c1 c2 c3 c4 mid post hmid hpost
  obtain ⟨s3, s1, R, R2, q1, q2, h1, h2, h3, h4, h5, h6, h7, h8, h9⟩ :=
    two_connections a1 a2 c1 c2 c3 c4 mid post hmid hpost
  exact ⟨s3, s1, R, R2, q1, q2, h1, h2, h3, h4, by rw [h5]; rfl, h5, h6, h7, h8, h9⟩

/-- Witness of C14: a first connection stamped up to WroteRequest, then a retry on a
second dialled connection. -/
theorem C14_earlier_records_isolated_witness :
    (∃ s1, run
        { heap := [⟨"h:80", 1, 2, 3, 4, 5, 6, 0⟩], t := some 0, traces := [some 0] }
        [(.GetConn "h:81", 7), (.GotConn false, 8), (.WroteRequest, 9),
          (.GotFirstResponseByte, 10)] = some s1 ∧
      s1.traces[0]? = some (some 0) ∧
      s1.deref (some 0) = some ⟨"h:80", 1, 2, 3, 4, 5, 6, 0⟩) ∧
    (∃ s1, run fresh [(.GetConn "h:80", 1), (.GotConn false, 2), (.DNSStart, 3),
          (.GetConn "h:81", 7), (.GotConn false, 8), (.WroteRequest, 9)] = some s1 ∧
      s1.traces.length = 2) ∧
    run fresh [(.GetConn "h:80", 1), (.GotConn false, 2), (.DNSStart, 3),
        (.GetConn "h:81", 7), (.GotConn false, 8), (.WroteRequest, 9)] =
      some { heap := [⟨"h:80", 1, 3, 0, 0, 0, 0, 0⟩, ⟨"h:81", 7, 0, 0, 0, 0, 9, 0⟩],
             t := some 1, traces := [some 0, some 1] } := by
  refine ⟨?_, ?_, by decide⟩
  · obtain ⟨s1, h1, h2, h3, _⟩ :=
      C14_earlier_records_isolated.1
        { heap := [⟨"h:80", 1, 2, 3, 4, 5, 6, 0⟩], t := some 0, traces := [some 0] }
        0 (some 0) ⟨"h:80", 1, 2, 3, 4, 5, 6, 0⟩ (.GetConn "h:81") 7
        [(.GotConn false, 8), (.WroteRequest, 9), (.GotFirstResponseByte, 10)]
        rfl rfl rfl
    exact ⟨s1, h1, h2, h3⟩
  · obtain ⟨_, s1, _, _, _, _, _, _, _, h4, h5, _⟩ :=
      C14_earlier_records_isolated.2 "h:80" "h:81" 1 2 7 8 [(.DNSStart, 3)]
        [(.WroteRequest, 9)] (by decide) (by decide)
    exact ⟨s1, h4, h5⟩

/-! ## Ordering of the timestamps -/

/-- C17: if the clock readings c0 ≤ c1 ≤ ... ≤ c7 are non-decreasing and the events of
one dialled connection fire once each in the order GetConn, GotConn(false), DNSStart,
DNSDone, ConnectStart, ConnectDone, WroteRequest, GotFirstResponseByte, then after the
first `k` events (1 ≤ k ≤ 8) the run has completed, there is a current record, and the
timestamps stamped so far, taken in the order start, dnsStart, dnsEnd, tcpStart,
tcpEnd, waitStart, waitEnd, are non-decreasing; after all eight events the full chain
start ≤ dnsStart ≤ dnsEnd ≤ tcpStart ≤ tcpEnd ≤ waitStart ≤ waitEnd holds. -/
theorem C17_timestamp_order (a : String) (c0 c1 c2 c3 c4 c5 c6 c7 : Time)
    (h01 : c0 ≤ c1) (h12 : c1 ≤ c2) (h23 : c2 ≤ c3) (h34 : c3 ≤ c4) (h45 : c4 ≤ c5)
    (h56 : c5 ≤ c6) (h67 : c6 ≤ c7) :
    (∀ k, 1 ≤ k → k ≤ 8 → ∃ s r,
      run fresh ((lifecycle a c0 c1 c2 c3 c4 c5 c6 c7).take k) = some s ∧
      s.deref s.t = some r ∧
      (r.stamps.take (stampedAfter k)).Pairwise (fun x y => x ≤ y)) ∧
    (∃ s r, run fresh (lifecycle a c0 c1 c2 c3 c4 c5 c6 c7) = some s ∧
      s.deref s.t = some r ∧ s.traces = [s.t] ∧
      r.start ≤ r.dnsStart ∧ r.dnsStart ≤ r.dnsEnd ∧ r.dnsEnd ≤ r.tcpStart ∧
      r.tcpStart ≤ r.tcpEnd ∧ r.tcpEnd ≤ r.waitStart ∧ r.waitStart ≤ r.waitEnd) := by
  have h02 : c0 ≤ c2 := le_trans h01 h12
  refine ⟨?_, ⟨_, ⟨a, c0, c2, c3, c4, c5, c6, c7⟩, run_lifecycle a c0 c1 c2 c3 c4 c5 c6 c7,
    rfl, rfl, h02, h23, h34, h45, h56, h67⟩⟩
  intro k hk1 hk8
  have h03 : c0 ≤ c3 := le_trans h02 h23
  have h04 : c0 ≤ c4 := le_trans h03 h34
  have h05 : c0 ≤ c5 := le_trans h04 h45
  have h06 : c0 ≤ c6 := le_trans h05 h56
  have h07 : c0 ≤ c7 := le_trans h06 h67
  have h24 : c2 ≤ c4 := le_trans h23 h34
  have h25 : c2 ≤ c5 := le_trans h24 h45
  have h26 : c2 ≤ c6 := le_trans h25 h56
  have h27 : c2 ≤ c7 := le_trans h26 h67
  have h35 : c3 ≤ c5 := le_trans h34 h45
  have h36 : c3 ≤ c6 := le_trans h35 h56
  have h37 : c3 ≤ c7 := le_trans h36 h67
  have h46 : c4 ≤ c6 := le_trans h45 h56
  have h47 : c4 ≤ c7 := le_trans h46 h67
  have h57 : c5 ≤ c7 := le_trans h56 h67
  interval_cases k
  · refine ⟨_, ⟨a, c0, 0, 0, 0, 0, 0, 0⟩, rfl, rfl, ?_⟩
    simp [trace.stamps, stampedAfter]
  · refine ⟨_, ⟨a, c0, 0, 0, 0, 0, 0, 0⟩, rfl, rfl, ?_⟩
    simp [trace.stamps, stampedAfter]
  · refine ⟨_, ⟨a, c0, c2, 0, 0, 0, 0, 0⟩, rfl, rfl, ?_⟩
    simp [trace.stamps, stampedAfter, *]
  · refine ⟨_, ⟨a, c0, c2, c3, 0, 0, 0, 0⟩, rfl, rfl, ?_⟩
    simp [trace.stamps, stampedAfter, *]
  · refine ⟨_, ⟨a, c0, c2, c3, c4, 0, 0, 0⟩, rfl, rfl, ?_⟩
    simp [trace.stamps, stampedAfter, *]
  · refine ⟨_, ⟨a, c0, c2, c3, c4, c5, 0, 0⟩, rfl, rfl, ?_⟩
    simp [trace.stamps, stampedAfter, *]
  · refine ⟨_, ⟨a, c0, c2, c3, c4, c5, c6, 0⟩, rfl, rfl, ?_⟩
    simp [trace.stamps, stampedAfter, *]
  · refine ⟨_, ⟨a, c0, c2, c3, c4, c5, c6, c7⟩, rfl, rfl, ?_⟩
    simp [trace.stamps, stampedAfter, *]

/-- Witness of C17: the clock readings of the fresh-connection scenario, in
milliseconds. -/
theorem C17_timestamp_order_witness :
    (∃ s r, run fresh ((lifecycle "10.0.0.1:443" 0 0 1 5 5 15 16 50).take 5) = some s ∧
      s.deref s.t = some r ∧
      (r.stamps.take (stampedAfter 5)).Pairwise (fun x y => x ≤ y)) ∧
    run fresh ((lifecycle "10.0.0.1:443" 0 0 1 5 5 15 16 50).take 5) =
      some { heap := [⟨"10.0.0.1:443", 0, 1, 5, 5, 0, 0, 0⟩], t := some 0,
             traces := [some 0] } ∧
    stampedAfter 5 = 4 ∧
    ∃ s r, run fresh (lifecycle "10.0.0.1:443" 0 0 1 5 5 15 16 50) = some s ∧
      s.deref s.t = some r ∧ r.start ≤ r.dnsStart ∧ r.waitStart ≤ r.waitEnd := by
  have h := C17_timestamp_order "10.0.0.1:443" 0 0 1 5 5 15 16 50 (by decide)
    (by decide) (by decide) (by decide) (by decide) (by decide) (by decide)
  obtain ⟨s, r, h1, h2, _, h4, _, _, _, _, h9⟩ := h.2
  exact ⟨h.1 5 (by decide) (by decide), by decide, by decide, s, r, h1, h2, h4, h9⟩

end httpstat
